import Mathlib

set_option linter.unusedVariables false
set_option maxRecDepth 2000

/-!
Shallow embedding of the tarir repository's compressed-stream decoders
(`src/dat_decompress.rs` and `src/texture_decompress.rs`) and proofs about
the specification's claims.

Modelling conventions:
* Machine integers (`u8`, `u16`, `u32`, `u64`) are `Nat` with explicit
  wrapping (`% 2^w`).  Arithmetic follows Rust release-profile semantics:
  add/sub/mul wrap, and a shift amount is masked by the bit width.
* A Rust panic (out-of-bounds array index, `unimplemented!`, slice length
  mismatch) is the explicit error value of an `Except`; so array reads and
  writes go through bounds-checked helpers.
* `while` loops become structural recursion when a measure is evident from
  the source, and otherwise carry an explicit fuel argument (a run that
  exhausts its fuel answers `fuelOut`; every claim below is settled either
  on concrete runs that stay far below the fuel or on statements that hold
  for every fuel).
* The `println!` diagnostics of the source have no observable effect and
  are dropped; where a claim is about a logged warning, the warning's
  condition is captured by a dedicated boolean definition.
-/

namespace Tarir

/-- Modulus of a 32-bit word. -/
def U32M : Nat := 4294967296

/-- Wrapping 32-bit left shift: Rust release semantics mask the shift
amount by 31 and the result wraps. -/
def shl32 (x k : Nat) : Nat := (x <<< (k % 32)) % U32M

/-- Wrapping 32-bit right shift (shift amount masked by 31). -/
def shr32 (x k : Nat) : Nat := (x % U32M) >>> (k % 32)

/-- Wrapping 32-bit addition. -/
def add32 (x y : Nat) : Nat := (x + y) % U32M

/-- Wrapping 32-bit subtraction. -/
def sub32 (x y : Nat) : Nat := (x + U32M - y % U32M) % U32M

/-- Wrapping 32-bit multiplication. -/
def mul32 (x y : Nat) : Nat := (x * y) % U32M

/-- Wrapping 8-bit subtraction (`u8::wrapping_sub`). -/
def sub8 (x y : Nat) : Nat := (x + 256 - y % 256) % 256

/-- Wrapping 16-bit subtraction (`u16::wrapping_sub`). -/
def sub16 (x y : Nat) : Nat := (x + 65536 - y % 65536) % 65536

/-- Reinterpret a `u16` bit pattern as an `i16` value (`as i16`). -/
def i16ofU16 (x : Nat) : Int :=
  if x % 65536 < 32768 then (x % 65536 : Int) else (x % 65536 : Int) - 65536

/-- Wrap an integer into the `i16` range (`i16::wrapping_sub` result). -/
def i16wrap (z : Int) : Int := (z + 32768) % 65536 - 32768

/-- Truncate an `i16` value to a `u16` bit pattern (`as u16`). -/
def u16ofInt (z : Int) : Nat := (z % 65536).toNat

/-- Error outcomes of a modelled run: an array/slice panic, the
`unimplemented!` panic of the plain-color texture decoder, an I/O read
failure, or fuel exhaustion of the model's loop bound. -/
inductive DecompErr where
  | panicIndex : DecompErr
  | panicUnimplemented : DecompErr
  | readFail : DecompErr
  | fuelOut : DecompErr
deriving DecidableEq, Repr

/-- Bounds-checked read of a `Nat` array (Rust `a[i]` panics out of range). -/
def lget (l : List Nat) (i : Nat) : Except DecompErr Nat :=
  if h : i < l.length then .ok l[i] else .error .panicIndex

/-- Bounds-checked read of a `bool` array. -/
def lgetB (l : List Bool) (i : Nat) : Except DecompErr Bool :=
  if h : i < l.length then .ok l[i] else .error .panicIndex

/-- Bounds-checked write to a `Nat` array. -/
def lset (l : List Nat) (i v : Nat) : Except DecompErr (List Nat) :=
  if i < l.length then .ok (l.set i v) else .error .panicIndex

/-- Bounds-checked write to a `bool` array. -/
def lsetB (l : List Bool) (i : Nat) (v : Bool) : Except DecompErr (List Bool) :=
  if i < l.length then .ok (l.set i v) else .error .panicIndex

/-- Fixed-length array, modelled as its length together with a total index
function (every program access still goes through the bounds-checked
`aget` / `aset`, so reads and writes panic outside `[0, size)` exactly as
Rust's `[T; N]` indexing does). -/
structure NArr (α : Type) where
  size : Nat
  get : Nat → α

/-- Array of `n` copies of `v` (the `Default` fills of the source). -/
def NArr.fill (n : Nat) (v : α) : NArr α := ⟨n, fun _ => v⟩

/-- Bounds-checked array read (Rust `a[i]`). -/
def aget (l : NArr α) (i : Nat) : Except DecompErr α :=
  if i < l.size then .ok (l.get i) else .error .panicIndex

/-- Bounds-checked array write (Rust `a[i] = v`). -/
def aset (l : NArr α) (i : Nat) (v : α) : Except DecompErr (NArr α) :=
  if i < l.size then
    .ok ⟨l.size, fun j => if j = i then v else l.get j⟩
  else .error .panicIndex

/-- `MAX_BITS_HASH` of the source. -/
def MAX_BITS_HASH : Nat := 8

/-- `MAX_CODE_BITS_LENGTH` of the source. -/
def MAX_CODE_BITS_LENGTH : Nat := 32

/-- `MAX_SYMBOL_VALUE` of the source. -/
def MAX_SYMBOL_VALUE : Nat := 285

/-- The `HuffmanTree` struct: fixed-size arrays become lists of the
corresponding length (32 / 285 / 256 entries). -/
structure HuffmanTree where
  codeComparison : NArr Nat
  symbolValueOffset : NArr Nat
  codeBits : NArr Nat
  symbolValue : NArr Nat
  symbolValueHashExist : NArr Bool
  symbolValueHash : NArr Nat
  codeBitsHash : NArr Nat

/-- `HuffmanTree::default()`: all entries zero / false. -/
def HuffmanTree.init : HuffmanTree where
  codeComparison := NArr.fill MAX_CODE_BITS_LENGTH 0
  symbolValueOffset := NArr.fill MAX_CODE_BITS_LENGTH 0
  codeBits := NArr.fill MAX_CODE_BITS_LENGTH 0
  symbolValue := NArr.fill MAX_SYMBOL_VALUE 0
  symbolValueHashExist := NArr.fill (2 ^ MAX_BITS_HASH) false
  symbolValueHash := NArr.fill (2 ^ MAX_BITS_HASH) 0
  codeBitsHash := NArr.fill (2 ^ MAX_BITS_HASH) 0

/-- The `HuffmanTreeBuilder` struct. -/
structure HuffmanTreeBuilder where
  bitsHeadExist : NArr Bool
  bitsHead : NArr Nat
  bitsBodyExist : NArr Bool
  bitsBody : NArr Nat

/-- `HuffmanTreeBuilder::default()`. -/
def HuffmanTreeBuilder.init : HuffmanTreeBuilder where
  bitsHeadExist := NArr.fill MAX_CODE_BITS_LENGTH false
  bitsHead := NArr.fill MAX_CODE_BITS_LENGTH 0
  bitsBodyExist := NArr.fill MAX_SYMBOL_VALUE false
  bitsBody := NArr.fill MAX_SYMBOL_VALUE 0

/-- `add_symbol`: push a `(symbol, bit length)` declaration onto the
builder's per-length LIFO chain. -/
def addSymbol (b : HuffmanTreeBuilder) (symbolData bitData : Nat) :
    Except DecompErr HuffmanTreeBuilder := do
  let headEx ← aget b.bitsHeadExist bitData
  if headEx then do
    let oldHead ← aget b.bitsHead bitData
    let body ← aset b.bitsBody symbolData oldHead
    let bodyEx ← aset b.bitsBodyExist symbolData true
    let head ← aset b.bitsHead bitData symbolData
    pure { bitsHeadExist := b.bitsHeadExist, bitsHead := head,
           bitsBodyExist := bodyEx, bitsBody := body }
  else do
    let head ← aset b.bitsHead bitData symbolData
    let headEx2 ← aset b.bitsHeadExist bitData true
    pure { bitsHeadExist := headEx2, bitsHead := head,
           bitsBodyExist := b.bitsBodyExist, bitsBody := b.bitsBody }

/-- `check_bits_head`: true iff no bit length has a declared head
(the builder is empty). -/
def checkBitsHead (b : HuffmanTreeBuilder) : Bool :=
  (List.range b.bitsHeadExist.size).all (fun i => b.bitsHeadExist.get i = false)

/-- Fill `count` hash table entries upward from `hashValue` for one code:
the inner `while hash_value < next_hash_value` loop of `build_huffmantree`
with `count = next_hash_value - hash_value` (the counter decreases exactly
when the loop's strict comparison holds, since `hash_value` only
increments). -/
def hashFill (t : HuffmanTree) (sym bits hashValue count : Nat) :
    Except DecompErr HuffmanTree := do
  match count with
  | 0 => pure t
  | count + 1 => do
    let he ← aset t.symbolValueHashExist hashValue true
    let hv ← aset t.symbolValueHash hashValue sym
    let hb ← aset t.codeBitsHash hashValue bits
    let t := { t with
      symbolValueHashExist := he
      symbolValueHash := hv
      codeBitsHash := hb }
    hashFill t sym bits (hashValue + 1) count

/-- Walk one bit length's chain during the hash part of
`build_huffmantree`, filling hash ranges and decrementing the running
code.  Returns the updated tree and code counter. -/
def chainWalkHash (builder : HuffmanTreeBuilder) (fuel : Nat)
    (t : HuffmanTree) (currentSymbol tempCode tempBits : Nat) :
    Except DecompErr (HuffmanTree × Nat) := do
  match fuel with
  | 0 => .error .fuelOut
  | fuel + 1 => do
    let hashValue := shl32 tempCode (MAX_BITS_HASH - tempBits) % 65536
    let nextHash := shl32 (add32 tempCode 1) (MAX_BITS_HASH - tempBits) % 65536
    let t ← hashFill t currentSymbol tempBits hashValue (nextHash - hashValue)
    let dataExist ← aget builder.bitsBodyExist currentSymbol
    let nextSymbol ← aget builder.bitsBody currentSymbol
    let tempCode := sub32 tempCode 1
    if dataExist then
      chainWalkHash builder fuel t nextSymbol tempCode tempBits
    else
      pure (t, tempCode)

/-- First loop of `build_huffmantree` over bit lengths `0 ..= 8`:
`count` iterations remain (`count = MAX_BITS_HASH + 1 - tempBits`, so the
loop guard `temp_bits <= 8` holds exactly while `count > 0`). -/
def buildHashPart (builder : HuffmanTreeBuilder) (t : HuffmanTree)
    (tempCode tempBits count : Nat) : Except DecompErr (HuffmanTree × Nat) := do
  match count with
  | 0 => pure (t, tempCode)
  | count + 1 => do
    let dataExist ← aget builder.bitsHeadExist tempBits
    let (t, tempCode) ←
      if dataExist then do
        let head ← aget builder.bitsHead tempBits
        chainWalkHash builder 300 t head tempCode tempBits
      else
        pure (t, tempCode)
    buildHashPart builder t (add32 (shl32 tempCode 1) 1) (tempBits + 1) count

/-- Walk one bit length's chain during the second part of
`build_huffmantree`, registering symbols into `symbol_value`.  Returns
the updated tree, code counter and symbol offset. -/
def chainWalkSym (builder : HuffmanTreeBuilder) (fuel : Nat)
    (t : HuffmanTree) (currentSymbol tempCode symbolOffset : Nat) :
    Except DecompErr (HuffmanTree × Nat × Nat) := do
  match fuel with
  | 0 => .error .fuelOut
  | fuel + 1 => do
    let sv ← aset t.symbolValue symbolOffset currentSymbol
    let t := { t with symbolValue := sv }
    let symbolOffset := (symbolOffset + 1) % 65536
    let dataExist ← aget builder.bitsBodyExist currentSymbol
    let nextSymbol ← aget builder.bitsBody currentSymbol
    let tempCode := sub32 tempCode 1
    if dataExist then
      chainWalkSym builder fuel t nextSymbol tempCode symbolOffset
    else
      pure (t, tempCode, symbolOffset)

/-- Second loop of `build_huffmantree` over bit lengths `9 ..= 31`:
`count` iterations remain (`count = MAX_CODE_BITS_LENGTH - tempBits`, so
the loop guard `temp_bits < 32` holds exactly while `count > 0`). -/
def buildCmpPart (builder : HuffmanTreeBuilder) (t : HuffmanTree)
    (tempCode tempBits cmpIndex symbolOffset count : Nat) :
    Except DecompErr HuffmanTree := do
  match count with
  | 0 => pure t
  | count + 1 => do
    let dataExist ← aget builder.bitsHeadExist tempBits
    let (t, tempCode, cmpIndex, symbolOffset) ←
      if dataExist then do
        let head ← aget builder.bitsHead tempBits
        let (t, tempCode, symbolOffset) ←
          chainWalkSym builder 300 t head tempCode symbolOffset
        let cc ← aset t.codeComparison cmpIndex
          (shl32 (add32 tempCode 1) (32 - tempBits))
        let cb ← aset t.codeBits cmpIndex tempBits
        let so ← aset t.symbolValueOffset cmpIndex (sub16 symbolOffset 1)
        let t := { t with
          codeComparison := cc
          codeBits := cb
          symbolValueOffset := so }
        pure (t, tempCode, (cmpIndex + 1) % 65536, symbolOffset)
      else
        pure (t, tempCode, cmpIndex, symbolOffset)
    buildCmpPart builder t (add32 (shl32 tempCode 1) 1) (tempBits + 1)
      cmpIndex symbolOffset count

/-- `build_huffmantree`: answers `none` when the builder is empty
(the source's `Ok(false)` leaving the table untouched), otherwise the
freshly built table. -/
def buildHuffmantree (builder : HuffmanTreeBuilder) :
    Except DecompErr (Option HuffmanTree) := do
  if checkBitsHead builder then
    pure none
  else do
    let (t, tempCode) ← buildHashPart builder HuffmanTree.init 0 0 (MAX_BITS_HASH + 1)
    let t ← buildCmpPart builder t tempCode (MAX_BITS_HASH + 1) 0 0
      (MAX_CODE_BITS_LENGTH - (MAX_BITS_HASH + 1))
    pure (some t)


/-- Little-endian `u32` read at a byte position (`read_u32::<LittleEndian>`). -/
def readU32LE (l : List Nat) (pos : Nat) : Nat :=
  l.getD pos 0 % 256 + 256 * (l.getD (pos + 1) 0 % 256) +
    65536 * (l.getD (pos + 2) 0 % 256) + 16777216 * (l.getD (pos + 3) 0 % 256)

namespace Dat

/-- The `StateData` struct of `dat_decompress.rs`.  The cursor is the pair
of the input list and `bufferPositionBytes`. -/
structure StateData where
  inputBuffer : List Nat
  bufferPositionBytes : Nat
  bufferPositionBit : Nat
  bytesAvailable : Nat
  skippedBytes : Nat
  headData : Nat
  bufferData : Nat
  bytesAvailableData : Nat
deriving DecidableEq, Repr

/-- `pull_byte` of `dat_decompress.rs`: read one little-endian word when at
least four bytes remain, else report zero bits.  Returns the new state and
the two out-parameters `(head_data, bytes_available_data)`. -/
def pullByte (s : StateData) : StateData × Nat × Nat :=
  if 4 ≤ s.bytesAvailable then
    let w := readU32LE s.inputBuffer s.bufferPositionBytes
    ({ s with
        bytesAvailable := s.bytesAvailable - 4
        bufferPositionBytes := s.bufferPositionBytes + 4
        bufferPositionBit := s.bufferPositionBit + 32 },
      w, 32)
  else
    (s, 0, 0)

/-- `read_bits` of `dat_decompress.rs`: peek the top `bitsNumber` bits of
head; on underflow pad the value with low zeros (for `bitsNumber < 32`).
The source takes the state by mutable reference but never writes it; the
returned state is therefore the argument itself. -/
def readBits (s : StateData) (bitsNumber : Nat) : Nat × StateData :=
  let value := shr32 s.headData (sub8 32 bitsNumber)
  if s.bytesAvailableData < bitsNumber then
    if bitsNumber < 32 then (shl32 value (32 - bitsNumber), s) else (value, s)
  else
    (value, s)

/-- `drop_bits` of `dat_decompress.rs`: consume `bitsNumber` bits, shifting
the buffer register into head and pulling a fresh word when the live count
falls below 32. -/
def dropBits (s : StateData) (bitsNumber : Nat) : StateData :=
  let s := { s with bufferPositionBit := s.bufferPositionBit + bitsNumber }
  let newBitsAvailable := sub8 s.bytesAvailableData bitsNumber
  if 32 ≤ newBitsAvailable then
    if bitsNumber = 32 then
      { s with headData := s.bufferData, bufferData := 0,
               bytesAvailableData := newBitsAvailable }
    else
      { s with
        headData := shl32 s.headData bitsNumber |||
          shr32 s.bufferData (sub8 32 bitsNumber)
        bufferData := shl32 s.bufferData bitsNumber
        bytesAvailableData := newBitsAvailable }
  else
    let (s, newValue, pulledBits) := pullByte s
    let head0 := if bitsNumber = 32 then 0 else shl32 s.headData bitsNumber
    let head1 := head0 |||
      (shr32 s.bufferData (sub8 32 bitsNumber) ||| (newValue >>> newBitsAvailable))
    let buffer :=
      if 0 < newBitsAvailable then shl32 newValue (32 - newBitsAvailable)
      else s.bufferData
    { s with headData := head1, bufferData := buffer,
             bytesAvailableData := newBitsAvailable + pulledBits }

/-- Scan loop of `read_code`'s slow path: first length-class index whose
`code_comparison` is not above the peeked 32 bits.  The fuel of 33 covers
every possible scan over the 32-entry array (index 32 panics first). -/
def findCmpIndex (t : HuffmanTree) (v32 fuel indexData : Nat) : Except DecompErr Nat :=
  match fuel with
  | 0 => .error .fuelOut
  | fuel + 1 =>
    if indexData < t.codeComparison.size then
      if v32 < t.codeComparison.get indexData then findCmpIndex t v32 fuel (indexData + 1)
      else pure indexData
    else
      .error .panicIndex

/-- `read_code` of `dat_decompress.rs`: decode one symbol, via the 8-bit
hash fast path or the `code_comparison` slow path, and consume its bits. -/
def readCode (t : HuffmanTree) (s : StateData) : Except DecompErr (Nat × StateData) := do
  let indexNum := (readBits s MAX_BITS_HASH).1
  let exist ← aget t.symbolValueHashExist indexNum
  if exist then do
    let symbolData ← aget t.symbolValueHash (readBits s MAX_BITS_HASH).1
    let codeBitsHash ← aget t.codeBitsHash (readBits s MAX_BITS_HASH).1
    pure (symbolData, dropBits s codeBitsHash)
  else do
    let v32 := (readBits s 32).1
    let indexData ← findCmpIndex t v32 (MAX_CODE_BITS_LENGTH + 1) 0
    let tempBits ← aget t.codeBits indexData
    let cmp ← aget t.codeComparison indexData
    let adjustedBits := sub32 v32 cmp
    let shiftedBits := shr32 adjustedBits ((32 + 65536 - tempBits % 65536) % 65536)
    let offset ← aget t.symbolValueOffset indexData
    let symbolIndex := sub16 offset shiftedBits
    let symbolData ← aget t.symbolValue symbolIndex
    pure (symbolData, dropBits s tempBits)

/-- Inner declaration run of `parse_huffmantree`: declare `nsym` symbols of
length `bits` at decreasing `remaining` values. -/
def declRun (b : HuffmanTreeBuilder) (remaining : Int) (bits nsym : Nat) :
    Except DecompErr (HuffmanTreeBuilder × Int) := do
  match nsym with
  | 0 => pure (b, remaining)
  | n + 1 => do
    let b ← addSymbol b (u16ofInt remaining) bits
    declRun b (i16wrap (remaining - 1)) bits n

/-- Declaration loop of `parse_huffmantree` (`while remaining_symbol >= 0`). -/
def parseDeclLoop (dict : HuffmanTree) (fuel : Nat) (s : StateData)
    (b : HuffmanTreeBuilder) (remaining : Int) :
    Except DecompErr (StateData × HuffmanTreeBuilder) := do
  if remaining < 0 then pure (s, b)
  else match fuel with
  | 0 => .error .fuelOut
  | fuel + 1 => do
    let (tempCode, s) ← readCode dict s
    let tempCodeNumberBits := tempCode &&& 0x1F
    let tempCodeNumberSymbol := (tempCode >>> 5) + 1
    if tempCodeNumberBits = 0 then
      parseDeclLoop dict fuel s b (i16wrap (remaining - tempCodeNumberSymbol))
    else do
      let (b, remaining) ← declRun b remaining tempCodeNumberBits tempCodeNumberSymbol
      parseDeclLoop dict fuel s b remaining

/-- Initial value of `remaining_symbol` in `parse_huffmantree`:
`symbol_number.wrapping_sub(1) as i16`, from the raw 16-bit count. -/
def parseRemainingStart (symbolNumber : Nat) : Int := i16ofU16 (sub16 symbolNumber 1)

/-- Condition of the `"Too many symbols to decode."` warning. -/
def parseCountWarns (symbolNumber : Nat) : Bool := decide (MAX_SYMBOL_VALUE < symbolNumber)

/-- `parse_huffmantree` of `dat_decompress.rs`: read the 16-bit count, run
the declaration loop against the static dictionary, build the table.
Answers `none` when the built table would be empty (the source's
`Ok(false)`). -/
def parseHuffmantree (dict : HuffmanTree) (s : StateData) :
    Except DecompErr (StateData × Option HuffmanTree) := do
  let symbolNumber := (readBits s 16).1 % 65536
  let s := dropBits s 16
  let (s, b) ← parseDeclLoop dict 70000 s HuffmanTreeBuilder.init
      (parseRemainingStart symbolNumber)
  let tbl ← buildHuffmantree b
  pure (s, tbl)

/-- Comparator following the specification's words for excess counts
("parsing continues with min(count, 285)"): identical to
`parseHuffmantree` except that the 16-bit count is clamped to
`min(count, MAX_SYMBOL_VALUE)` before the declaration loop. -/
def parseHuffmantreeSpecClamped (dict : HuffmanTree) (s : StateData) :
    Except DecompErr (StateData × Option HuffmanTree) := do
  let symbolNumber := min ((readBits s 16).1 % 65536) MAX_SYMBOL_VALUE
  let s := dropBits s 16
  let (s, b) ← parseDeclLoop dict 70000 s HuffmanTreeBuilder.init
      (parseRemainingStart symbolNumber)
  let tbl ← buildHuffmantree b
  pure (s, tbl)

/-- Condition of the `"Invalid value for write_size code."` warning. -/
def writeSizeWarns (symbolData : Nat) : Bool :=
  decide (7 ≤ symbolData / 4) && decide (symbolData ≠ 28)

/-- Length decoding of `inflate_data` (the write-size block, source lines
288-314): base from the quotient/remainder split by 4, optional extra bits,
then the constant addend. -/
def decodeWriteSize (symbolData addend : Nat) (s : StateData) : Nat × StateData :=
  let q := symbolData / 4
  let r := symbolData % 4
  let ws :=
    if q = 0 then symbolData
    else if q < 7 then mul32 (shl32 1 (sub16 q 1)) (4 + r)
    else if symbolData = 28 then 0xFF
    else 0
  let (ws, s) :=
    if 1 < q ∧ symbolData ≠ 28 then
      let bits := sub16 q 1 % 256
      (ws ||| (readBits s bits).1, dropBits s bits)
    else (ws, s)
  (add32 ws addend, s)

/-- Offset decoding of `inflate_data` (the write-offset block, source lines
316-340): split by 2, optional extra bits, then the final `+ 1`. -/
def decodeWriteOffset (symbolData : Nat) (s : StateData) : Nat × StateData :=
  let q := symbolData / 2
  let r := symbolData % 2
  let wo :=
    if q = 0 then symbolData
    else if q < 17 then mul32 (shl32 1 (sub16 q 1)) (2 + r)
    else 0
  let (wo, s) :=
    if 1 < q then
      let bits := sub16 q 1 % 256
      (wo ||| (readBits s bits).1, dropBits s bits)
    else (wo, s)
  (add32 wo 1, s)

/-- Back-reference copy loop of `inflate_data` (source lines 342-348).
The fuel `outputDataSize + 1` supplied by the token loop exceeds the
iteration count, which the guard `outputPosition < outputDataSize` caps. -/
def copyLoop (fuel : Nat) (outputData : List Nat)
    (outputPosition writeSize alreadyWritten writeOffset outputDataSize : Nat) :
    Except DecompErr (List Nat × Nat) := do
  if alreadyWritten < writeSize ∧ outputPosition < outputDataSize then
    match fuel with
    | 0 => .error .fuelOut
    | fuel + 1 => do
      let v ← lget outputData (sub32 outputPosition writeOffset)
      let outputData ← lset outputData outputPosition v
      copyLoop fuel outputData (outputPosition + 1) writeSize (alreadyWritten + 1)
        writeOffset outputDataSize
  else
    pure (outputData, outputPosition)

/-- Token loop of `inflate_data` (source lines 274-349).  `remTokens` is
`max_count` minus the tokens already read. -/
def tokenLoop (symTab copyTab : HuffmanTree) (writeSizeConstAddition : Nat)
    (s : StateData) (outputData : List Nat)
    (outputPosition outputDataSize remTokens : Nat) :
    Except DecompErr (StateData × List Nat × Nat) := do
  match remTokens with
  | 0 => pure (s, outputData, outputPosition)
  | remTokens + 1 =>
    if outputPosition < outputDataSize then do
      let (symbolData, s) ← readCode symTab s
      if symbolData < 0x100 then do
        let outputData ← lset outputData outputPosition (symbolData % 256)
        tokenLoop symTab copyTab writeSizeConstAddition s outputData
          (outputPosition + 1) outputDataSize remTokens
      else do
        let symbolData := sub16 symbolData 0x100
        let (writeSize, s) := decodeWriteSize symbolData writeSizeConstAddition s
        let (symbolData2, s) ← readCode copyTab s
        let (writeOffset, s) := decodeWriteOffset symbolData2 s
        let (outputData, outputPosition) ←
          copyLoop (outputDataSize + 1) outputData outputPosition writeSize 0
            writeOffset outputDataSize
        tokenLoop symTab copyTab writeSizeConstAddition s outputData
          outputPosition outputDataSize remTokens
    else
      pure (s, outputData, outputPosition)

/-- Outer block loop of `inflate_data` (source lines 250-350): parse the two
dynamic tables, read the token cap, run the token loop.  A failed parse
breaks out as the source does. -/
def blockLoop (dict : HuffmanTree) (fuel writeSizeConstAddition : Nat)
    (s : StateData) (outputData : List Nat) (outputPosition outputDataSize : Nat) :
    Except DecompErr (StateData × List Nat × Nat) := do
  if outputPosition < outputDataSize then
    match fuel with
    | 0 => .error .fuelOut
    | fuel + 1 => do
      let (s, symTabOpt) ← parseHuffmantree dict s
      match symTabOpt with
      | none => pure (s, outputData, outputPosition)
      | some symTab => do
        let (s, copyTabOpt) ← parseHuffmantree dict s
        match copyTabOpt with
        | none => pure (s, outputData, outputPosition)
        | some copyTab => do
          let maxCount := shl32 (add32 (readBits s 4).1 1) 12
          let s := dropBits s 4
          let (s, outputData, outputPosition) ←
            tokenLoop symTab copyTab writeSizeConstAddition s outputData
              outputPosition outputDataSize maxCount
          blockLoop dict fuel writeSizeConstAddition s outputData
            outputPosition outputDataSize
  else
    pure (s, outputData, outputPosition)

/-- Declarations of `initialize_huffmantree_dict`, in source order. -/
def datDictDecls : List (Nat × Nat) := [
  (0x0A, 3), (0x09, 3), (0x08, 3), (0x0C, 4), (0x0B, 4), (0x07, 4), (0x00, 4), (0xE0, 5),
  (0x2A, 5), (0x29, 5), (0x06, 5), (0x4A, 6), (0x40, 6), (0x2C, 6), (0x2B, 6), (0x28, 6),
  (0x20, 6), (0x05, 6), (0x04, 6), (0x49, 7), (0x48, 7), (0x27, 7), (0x26, 7), (0x25, 7),
  (0x0D, 7), (0x03, 7), (0x6A, 8), (0x69, 8), (0x4C, 8), (0x4B, 8), (0x47, 8), (0x24, 8),
  (0xE8, 9), (0xA0, 9), (0x89, 9), (0x88, 9), (0x68, 9), (0x67, 9), (0x63, 9), (0x60, 9),
  (0x46, 9), (0x23, 9), (0xE9, 10), (0xC9, 10), (0xC0, 10), (0xA9, 10), (0xA8, 10), (0x8A, 10),
  (0x87, 10), (0x80, 10), (0x66, 10), (0x65, 10), (0x45, 10), (0x44, 10), (0x43, 10), (0x2D, 10),
  (0x02, 10), (0x01, 10), (0xE5, 11), (0xC8, 11), (0xAA, 11), (0xA5, 11), (0xA4, 11), (0x8B, 11),
  (0x85, 11), (0x84, 11), (0x6C, 11), (0x6B, 11), (0x64, 11), (0x4D, 11), (0x0E, 11), (0xE7, 12),
  (0xCA, 12), (0xC7, 12), (0xA7, 12), (0xA6, 12), (0x86, 12), (0x83, 12), (0xE6, 13), (0xE4, 13),
  (0xC4, 13), (0x8C, 13), (0x2E, 13), (0x22, 13), (0xEC, 14), (0xC6, 14), (0x6D, 14), (0x4E, 14),
  (0xEA, 15), (0xCC, 15), (0xAC, 15), (0xAB, 15), (0x8D, 15), (0x11, 15), (0x10, 15), (0x0F, 15),
  (0xFF, 16), (0xFE, 16), (0xFD, 16), (0xFC, 16), (0xFB, 16), (0xFA, 16), (0xF9, 16), (0xF8, 16),
  (0xF7, 16), (0xF6, 16), (0xF5, 16), (0xF4, 16), (0xF3, 16), (0xF2, 16), (0xF1, 16), (0xF0, 16),
  (0xEF, 16), (0xEE, 16), (0xED, 16), (0xEB, 16), (0xE3, 16), (0xE2, 16), (0xE1, 16), (0xDF, 16),
  (0xDE, 16), (0xDD, 16), (0xDC, 16), (0xDB, 16), (0xDA, 16), (0xD9, 16), (0xD8, 16), (0xD7, 16),
  (0xD6, 16), (0xD5, 16), (0xD4, 16), (0xD3, 16), (0xD2, 16), (0xD1, 16), (0xD0, 16), (0xCF, 16),
  (0xCE, 16), (0xCD, 16), (0xCB, 16), (0xC5, 16), (0xC3, 16), (0xC2, 16), (0xC1, 16), (0xBF, 16),
  (0xBE, 16), (0xBD, 16), (0xBC, 16), (0xBB, 16), (0xBA, 16), (0xB9, 16), (0xB8, 16), (0xB7, 16),
  (0xB6, 16), (0xB5, 16), (0xB4, 16), (0xB3, 16), (0xB2, 16), (0xB1, 16), (0xB0, 16), (0xAF, 16),
  (0xAE, 16), (0xAD, 16), (0xA3, 16), (0xA2, 16), (0xA1, 16), (0x9F, 16), (0x9E, 16), (0x9D, 16),
  (0x9C, 16), (0x9B, 16), (0x9A, 16), (0x99, 16), (0x98, 16), (0x97, 16), (0x96, 16), (0x95, 16),
  (0x94, 16), (0x93, 16), (0x92, 16), (0x91, 16), (0x90, 16), (0x8F, 16), (0x8E, 16), (0x82, 16),
  (0x81, 16), (0x7F, 16), (0x7E, 16), (0x7D, 16), (0x7C, 16), (0x7B, 16), (0x7A, 16), (0x79, 16),
  (0x78, 16), (0x77, 16), (0x76, 16), (0x75, 16), (0x74, 16), (0x73, 16), (0x72, 16), (0x71, 16),
  (0x70, 16), (0x6F, 16), (0x6E, 16), (0x62, 16), (0x61, 16), (0x5F, 16), (0x5E, 16), (0x5D, 16),
  (0x5C, 16), (0x5B, 16), (0x5A, 16), (0x59, 16), (0x58, 16), (0x57, 16), (0x56, 16), (0x55, 16),
  (0x54, 16), (0x53, 16), (0x52, 16), (0x51, 16), (0x50, 16), (0x4F, 16), (0x42, 16), (0x41, 16),
  (0x3F, 16), (0x3E, 16), (0x3D, 16), (0x3C, 16), (0x3B, 16), (0x3A, 16), (0x39, 16), (0x38, 16),
  (0x37, 16), (0x36, 16), (0x35, 16), (0x34, 16), (0x33, 16), (0x32, 16), (0x31, 16), (0x30, 16),
  (0x2F, 16), (0x21, 16), (0x1F, 16), (0x1E, 16), (0x1D, 16), (0x1C, 16), (0x1B, 16), (0x1A, 16),
  (0x19, 16), (0x18, 16), (0x17, 16), (0x16, 16), (0x15, 16), (0x14, 16), (0x13, 16), (0x12, 16)
]

/-- `initialize_huffmantree_dict` of `dat_decompress.rs`: feed the 256
static declarations to the builder and build the bootstrap table.
`none` models the source's `Ok(false)`. -/
def initializeHuffmantreeDict : Except DecompErr (Option HuffmanTree) := do
  let b ← datDictDecls.foldlM (fun b p => addSymbol b p.1 p.2) HuffmanTreeBuilder.init
  buildHuffmantree b

/-- The bootstrap dictionary table itself (the source continues with the
default-initialized table when the build reports failure). -/
def datDictTree : HuffmanTree :=
  match initializeHuffmantreeDict with
  | .ok (some t) => t
  | _ => HuffmanTree.init

/-- Value of `write_size_const_addition` as read by `inflate_data`'s
12-bit prologue from state `s`: skip 4 bits, read 4 bits as `u16`, add 1. -/
def datAddend (s : StateData) : Nat :=
  ((readBits (dropBits s 4) 4).1 % 65536 + 1) % 65536

/-- State after `inflate_data`'s 12-bit prologue (both 4-bit drops; the
4-bit read in between does not change the state). -/
def datAfterSizePrologue (s : StateData) : StateData :=
  dropBits (dropBits s 4) 4

/-- `inflate_data` of `dat_decompress.rs`: read the 12-bit prologue once,
build the bootstrap dictionary, then run the block loop. -/
def inflateData (fuel : Nat) (s : StateData) (outputDataSize : Nat)
    (outputData : List Nat) : Except DecompErr (StateData × List Nat × Nat) :=
  let a := datAddend s
  let s := datAfterSizePrologue s
  match initializeHuffmantreeDict with
  | .error e => .error e
  | .ok dictOpt =>
      blockLoop (dictOpt.getD HuffmanTree.init) fuel a s outputData 0 outputDataSize

/-- Initial `StateData` of `inflate_dat_file_buffer` (source lines 202-207;
`skipped_bytes` is the DAT file's `SKIPPED_BYTES_PER_CHUNK`, i.e. 0). -/
def datInitState (input : List Nat) : StateData where
  inputBuffer := input
  bufferPositionBytes := 0
  bufferPositionBit := 0
  bytesAvailable := input.length % U32M
  skippedBytes := 0
  headData := 0
  bufferData := 0
  bytesAvailableData := 0

/-- Three-word prologue of `inflate_dat_file_buffer` (source lines 210-219):
pull the first word, drop it, read `output_data_size`, drop again.  Returns
the size and the state handed to `inflate_data`. -/
def datPrologue (input : List Nat) : Nat × StateData :=
  let s := datInitState input
  let (s, headData, bytesAvailableData) := pullByte s
  let s := { s with headData := headData, bytesAvailableData := bytesAvailableData }
  let s := dropBits s 32
  let outputDataSize := (readBits s 32).1
  let s := dropBits s 32
  (outputDataSize, s)

/-- `inflate_dat_file_buffer`: prologue, resize the (initially empty)
output vector to the announced size, inflate.  Returns the out-parameters
`(output_data_size, output_data)`. -/
def inflateDatFileBuffer (input : List Nat) : Except DecompErr (Nat × List Nat) :=
  let (outputDataSize, s) := datPrologue input
  let outputData := List.replicate outputDataSize 0
  match inflateData (outputDataSize + 1) s outputDataSize outputData with
  | .error e => .error e
  | .ok (_, outputData, _) => .ok (outputDataSize, outputData)

end Dat


namespace Tex

/-- The `StateData` struct of `texture_decompress.rs` (no bit-position
counter; `buffer_position` is the byte cursor). -/
structure StateData where
  inputBuffer : List Nat
  bufferPosition : Nat
  bytesAvailable : Nat
  skippedBytes : Nat
  headData : Nat
  bufferData : Nat
  bytesAvailableData : Nat
deriving DecidableEq, Repr

/-- `pull_byte` of `texture_decompress.rs`: when `skipped_bytes` is
non-zero and the next word index is a multiple of it, one word is read and
discarded first; then the next word is pulled.  Reads are modelled with a
defaulting byte fetch; on every state reached from the entry point the
tracked `bytesAvailable` equals the bytes left under the cursor, so the
guard makes the fetch coincide with the source's fallible read. -/
def pullByte (s : StateData) : StateData × Nat × Nat :=
  if 4 ≤ s.bytesAvailable then
    let s :=
      if s.skippedBytes ≠ 0 then
        if (s.bufferPosition / 4 + 1) % s.skippedBytes = 0 then
          { s with bytesAvailable := s.bytesAvailable - 4
                   bufferPosition := s.bufferPosition + 4 }
        else s
      else s
    let w := readU32LE s.inputBuffer s.bufferPosition
    ({ s with bytesAvailable := s.bytesAvailable - 4
              bufferPosition := s.bufferPosition + 4 },
      w, 32)
  else
    (s, 0, 0)

/-- `read_bits` of `texture_decompress.rs`: a pure peek of the top bits of
head (the underflow case only prints; there is no padding here, unlike the
DAT variant). -/
def readBits (s : StateData) (bitsNumber : Nat) : Nat × StateData :=
  (shr32 s.headData (sub8 32 bitsNumber), s)

/-- `drop_bits` of `texture_decompress.rs` (same register algebra as the
DAT variant, refilling through the texture `pull_byte`). -/
def dropBits (s : StateData) (bitsNumber : Nat) : StateData :=
  let newBitsAvailable := sub8 s.bytesAvailableData bitsNumber
  if 32 ≤ newBitsAvailable then
    if bitsNumber = 32 then
      { s with headData := s.bufferData, bufferData := 0,
               bytesAvailableData := newBitsAvailable }
    else
      { s with
        headData := shl32 s.headData bitsNumber |||
          shr32 s.bufferData (sub8 32 bitsNumber)
        bufferData := shl32 s.bufferData bitsNumber
        bytesAvailableData := newBitsAvailable }
  else
    let (s, newValue, pulledBits) := pullByte s
    let head0 := if bitsNumber = 32 then 0 else shl32 s.headData bitsNumber
    let head1 := head0 |||
      (shr32 s.bufferData (sub8 32 bitsNumber) ||| (newValue >>> newBitsAvailable))
    let buffer :=
      if 0 < newBitsAvailable then shl32 newValue (32 - newBitsAvailable)
      else s.bufferData
    { s with headData := head1, bufferData := buffer,
             bytesAvailableData := newBitsAvailable + pulledBits }

/-- Scan loop of the texture `read_code` slow path (fuel as in the DAT
variant). -/
def findCmpIndex (t : HuffmanTree) (v32 fuel indexData : Nat) : Except DecompErr Nat :=
  match fuel with
  | 0 => .error .fuelOut
  | fuel + 1 =>
    if indexData < t.codeComparison.size then
      if v32 < t.codeComparison.get indexData then findCmpIndex t v32 fuel (indexData + 1)
      else pure indexData
    else
      .error .panicIndex

/-- `read_code` of `texture_decompress.rs` (same algorithm as the DAT
variant over the texture state). -/
def readCode (t : HuffmanTree) (s : StateData) : Except DecompErr (Nat × StateData) := do
  let indexNum := (readBits s MAX_BITS_HASH).1
  let exist ← aget t.symbolValueHashExist indexNum
  if exist then do
    let symbolData ← aget t.symbolValueHash (readBits s MAX_BITS_HASH).1
    let codeBitsHash ← aget t.codeBitsHash (readBits s MAX_BITS_HASH).1
    pure (symbolData, dropBits s codeBitsHash)
  else do
    let v32 := (readBits s 32).1
    let indexData ← findCmpIndex t v32 (MAX_CODE_BITS_LENGTH + 1) 0
    let tempBits ← aget t.codeBits indexData
    let cmp ← aget t.codeComparison indexData
    let adjustedBits := sub32 v32 cmp
    let shiftedBits := shr32 adjustedBits ((32 + 65536 - tempBits % 65536) % 65536)
    let offset ← aget t.symbolValueOffset indexData
    let symbolIndex := sub16 offset shiftedBits
    let symbolData ← aget t.symbolValue symbolIndex
    pure (symbolData, dropBits s tempBits)

/-- The `Format` struct. -/
structure Format where
  flagData : Nat
  pixelSizeBits : Nat
deriving DecidableEq, Repr

/-- `Format::default()`. -/
def Format.init : Format := { flagData := 0, pixelSizeBits := 0 }

/-- The `FullFormat` struct. -/
structure FullFormat where
  format : Format
  pixelBlocks : Nat
  bytesPixelBlocks : Nat
  bytesComponent : Nat
  twoComponent : Bool
  width : Nat
  height : Nat
deriving DecidableEq, Repr

/-- `FormatFlags::FfDeducedalphacomp`. -/
def FF_DEDUCEDALPHACOMP : Nat := 0x40

/-- `CompressionFlags`: `CfDecodeWhiteColor`. -/
def CF_DECODE_WHITE_COLOR : Nat := 0x01

/-- `CompressionFlags`: `CfDecodeConstantAlphaFrom4bits`. -/
def CF_DECODE_CONSTANT_ALPHA_4 : Nat := 0x02

/-- `CompressionFlags`: `CfDecodeConstantAlphaFrom8bits`. -/
def CF_DECODE_CONSTANT_ALPHA_8 : Nat := 0x04

/-- `CompressionFlags`: `CfDecodePlainColor`. -/
def CF_DECODE_PLAIN_COLOR : Nat := 0x08

/-- The nine `Format` records pushed by `initialize_static_values`
(flag constants inlined: FfColor 0x10, FfAlpha 0x20, FfDeducedalphacomp
0x40, FfPlaincomp 0x80, FfBicolorcomp 0x200). -/
def formatData : List Format := [
  { flagData := 0x10 ||| 0x20 ||| 0x40, pixelSizeBits := 4 },
  { flagData := 0x10 ||| 0x20 ||| 0x80, pixelSizeBits := 8 },
  { flagData := 0x10 ||| 0x20 ||| 0x80, pixelSizeBits := 8 },
  { flagData := 0x10 ||| 0x20 ||| 0x80, pixelSizeBits := 8 },
  { flagData := 0x10 ||| 0x20 ||| 0x80, pixelSizeBits := 8 },
  { flagData := 0x20 ||| 0x80, pixelSizeBits := 4 },
  { flagData := 0x10, pixelSizeBits := 8 },
  { flagData := 0x200, pixelSizeBits := 8 },
  { flagData := 0x200, pixelSizeBits := 8 }]

/-- `deduce_format`: map the fourcc to one of the nine formats, default
(and a printed complaint) otherwise. -/
def deduceFormat (fourccData : Nat) (fd : List Format) : Format :=
  if fourccData = 0x31545844 then fd.getD 0 Format.init
  else if fourccData = 0x32545844 then fd.getD 1 Format.init
  else if fourccData = 0x33545844 then fd.getD 2 Format.init
  else if fourccData = 0x34545844 then fd.getD 3 Format.init
  else if fourccData = 0x35545844 then fd.getD 4 Format.init
  else if fourccData = 0x41545844 then fd.getD 5 Format.init
  else if fourccData = 0x4C545844 then fd.getD 6 Format.init
  else if fourccData = 0x4E545844 then fd.getD 7 Format.init
  else if fourccData = 0x58434433 then fd.getD 8 Format.init
  else Format.init

/-- Declarations of the texture `initialize_huffmantree_dict`, in source
order: symbol 0x01 at length 1, 0x12 at length 2, 0x11 down to 0x02 at
length 6. -/
def texDictDecls : List (Nat × Nat) := [
  (0x01, 1), (0x12, 2),
  (0x11, 6), (0x10, 6), (0x0F, 6), (0x0E, 6), (0x0D, 6), (0x0C, 6), (0x0B, 6),
  (0x0A, 6), (0x09, 6), (0x08, 6), (0x07, 6), (0x06, 6), (0x05, 6), (0x04, 6),
  (0x03, 6), (0x02, 6)]

/-- `initialize_huffmantree_dict` of `texture_decompress.rs`. -/
def initializeHuffmantreeDict : Except DecompErr (Option HuffmanTree) := do
  let b ← texDictDecls.foldlM (fun b p => addSymbol b p.1 p.2) HuffmanTreeBuilder.init
  buildHuffmantree b

/-- The texture dictionary table (the source continues with the default
table if the build reports failure). -/
def texDictTree : HuffmanTree :=
  match initializeHuffmantreeDict with
  | .ok (some t) => t
  | _ => HuffmanTree.init

/-- Write `count` little-endian bytes of `src` at `start`
(`destination[0..count].copy_from_slice(&src.to_le_bytes()[..count])`:
panics when `count > 8`, when `start` exceeds the buffer, or when fewer
than `count` bytes remain from `start`). -/
def writeBytesLE (out : List Nat) (start count src : Nat) :
    Except DecompErr (List Nat) :=
  if count ≤ 8 ∧ start + count ≤ out.length then
    .ok ((List.range count).foldl
      (fun o i => o.set (start + i) ((src >>> (8 * i)) % 256)) out)
  else
    .error .panicIndex

/-- Inner run of `decode_white_color` (`while temp_code > 0`): paint
still-uncovered blocks white when the decision bit is set. -/
def whiteInner (ff : FullFormat) (fuel tempCode value pos : Nat)
    (alphaBitmap colorBitmap : List Bool) (out : List Nat) :
    Except DecompErr (Nat × List Bool × List Bool × List Nat) := do
  if tempCode = 0 then pure (pos, alphaBitmap, colorBitmap, out)
  else match fuel with
  | 0 => .error .fuelOut
  | fuel + 1 =>
    if h : pos < colorBitmap.length then
      if colorBitmap[pos] then
        whiteInner ff fuel tempCode value (pos + 1) alphaBitmap colorBitmap out
      else if value ≠ 0 then do
        let out ← lset out (mul32 ff.bytesPixelBlocks pos) 255
        if h2 : pos < alphaBitmap.length then
          whiteInner ff fuel (tempCode - 1) value (pos + 1) (alphaBitmap.set pos true)
            (colorBitmap.set pos true) out
        else .error .panicIndex
      else
        whiteInner ff fuel (tempCode - 1) value (pos + 1) alphaBitmap colorBitmap out
    else .error .panicIndex

/-- Outer loop of `decode_white_color`; the source's trailing
resynchronisation `while` is unreachable there (the outer condition has
just failed) and is omitted. -/
def whiteLoop (dict : HuffmanTree) (ff : FullFormat) (fuel : Nat)
    (pos : Nat) (alphaBitmap colorBitmap : List Bool) (out : List Nat)
    (s : StateData) :
    Except DecompErr (StateData × List Bool × List Bool × List Nat) := do
  if pos < ff.pixelBlocks then
    match fuel with
    | 0 => .error .fuelOut
    | fuel + 1 => do
      let (tempCode, s) ← readCode dict s
      let value := (readBits s 1).1
      let s := dropBits s 1
      let (pos, alphaBitmap, colorBitmap, out) ←
        whiteInner ff (colorBitmap.length + 1) tempCode value pos alphaBitmap
          colorBitmap out
      whiteLoop dict ff fuel pos alphaBitmap colorBitmap out s
  else
    pure (s, alphaBitmap, colorBitmap, out)

/-- `decode_white_color` of `texture_decompress.rs`. -/
def decodeWhiteColor (dict : HuffmanTree) (ff : FullFormat) (s : StateData)
    (alphaBitmap colorBitmap : List Bool) (out : List Nat) :
    Except DecompErr (StateData × List Bool × List Bool × List Nat) :=
  whiteLoop dict ff (ff.pixelBlocks + 1) 0 alphaBitmap colorBitmap out s

/-- Inner run shared verbatim by `decode_constant_alpha_from_4_bits` and
`decode_constant_alpha_from_8_bits` (their `while temp_code > 0` bodies
are identical): write `bytesComponent` bytes of the alpha pattern (or
zero) into still-uncovered blocks. -/
def alphaInner (ff : FullFormat) (alphaValue : Nat) (fuel tempCode value exist pos : Nat)
    (alphaBitmap : List Bool) (out : List Nat) :
    Except DecompErr (Nat × List Bool × List Nat) := do
  if tempCode = 0 then pure (pos, alphaBitmap, out)
  else match fuel with
  | 0 => .error .fuelOut
  | fuel + 1 =>
    if h : pos < alphaBitmap.length then
      if alphaBitmap[pos] then
        alphaInner ff alphaValue fuel tempCode value exist (pos + 1) alphaBitmap out
      else if value ≠ 0 then do
        let src := if exist ≠ 0 then alphaValue else 0
        let out ← writeBytesLE out (ff.bytesPixelBlocks * pos) ff.bytesComponent src
        alphaInner ff alphaValue fuel (tempCode - 1) value exist (pos + 1)
          (alphaBitmap.set pos true) out
      else
        alphaInner ff alphaValue fuel (tempCode - 1) value exist (pos + 1) alphaBitmap out
    else .error .panicIndex

/-- Resynchronisation loop of the constant-alpha decoders
(`while pos < pixel_blocks && alpha_bitmap[pos]`). -/
def alphaSkip (fuel pixelBlocks pos : Nat) (alphaBitmap : List Bool) :
    Except DecompErr Nat := do
  if pos < pixelBlocks then
    match fuel with
    | 0 => .error .fuelOut
    | fuel + 1 =>
      if h : pos < alphaBitmap.length then
        if alphaBitmap[pos] then alphaSkip fuel pixelBlocks (pos + 1) alphaBitmap
        else pure pos
      else .error .panicIndex
  else pure pos

/-- Outer loop shared by the two constant-alpha decoders: decode a run
count, read the decision bit, peek the existence bit (only consumed when
the decision bit is set), run the inner painting loop, resynchronise. -/
def alphaLoop (dict : HuffmanTree) (ff : FullFormat) (alphaValue fuel pos : Nat)
    (alphaBitmap : List Bool) (out : List Nat) (s : StateData) :
    Except DecompErr (StateData × List Bool × List Nat) := do
  if pos < ff.pixelBlocks then
    match fuel with
    | 0 => .error .fuelOut
    | fuel + 1 => do
      let (tempCode, s) ← readCode dict s
      let value := (readBits s 1).1
      let s := dropBits s 1
      let exist := (readBits s 1).1 % 256
      let s := if value ≠ 0 then dropBits s 1 else s
      let (pos, alphaBitmap, out) ←
        alphaInner ff alphaValue (alphaBitmap.length + 1) tempCode value exist pos
          alphaBitmap out
      let pos ← alphaSkip (alphaBitmap.length + 1) ff.pixelBlocks pos alphaBitmap
      alphaLoop dict ff alphaValue fuel pos alphaBitmap out s
  else
    pure (s, alphaBitmap, out)

/-- `decode_constant_alpha_from_4_bits`: read a 4-bit alpha nibble and
replicate it through byte, word, dword and qword. -/
def decodeConstantAlphaFrom4Bits (dict : HuffmanTree) (ff : FullFormat)
    (s : StateData) (alphaBitmap : List Bool) (out : List Nat) :
    Except DecompErr (StateData × List Bool × List Nat) :=
  let alphaValueByte := (readBits s 4).1 % 256
  let s := dropBits s 4
  let intermediateByte := (alphaValueByte ||| (alphaValueByte <<< 4) % 256) % 65536
  let intermediateWord := (intermediateByte ||| (intermediateByte <<< 8) % 65536) % U32M
  let intermediateDword := intermediateWord ||| shl32 intermediateWord 16
  let alphaValue := (intermediateDword ||| (intermediateDword <<< 32)) % 2 ^ 64
  alphaLoop dict ff alphaValue (ff.pixelBlocks + 1) 0 alphaBitmap out s

/-- `decode_constant_alpha_from_8_bits`: read an 8-bit alpha byte; the
source's `wrapping_shl(8)` on a `u8` masks the shift to zero, so the
"doubled" pattern is the byte itself. -/
def decodeConstantAlphaFrom8Bits (dict : HuffmanTree) (ff : FullFormat)
    (s : StateData) (alphaBitmap : List Bool) (out : List Nat) :
    Except DecompErr (StateData × List Bool × List Nat) :=
  let alphaValueByte := (readBits s 8).1 % 256
  let s := dropBits s 8
  let alphaValue := alphaValueByte ||| (alphaValueByte <<< (8 % 8)) % 256
  alphaLoop dict ff alphaValue (ff.pixelBlocks + 1) 0 alphaBitmap out s

/-- `decode_plain_color` of `texture_decompress.rs`: read the three
reference colour bytes and then hit the unconditional `unimplemented!()`
at source line 653.  The pure arithmetic between the reads and the panic
cannot fail and is elided; the call never returns normally. -/
def decodePlainColor (dict : HuffmanTree) (ff : FullFormat) (s : StateData)
    (colorBitmap : List Bool) (out : List Nat) :
    Except DecompErr (StateData × List Bool × List Nat) :=
  let s := dropBits s 8
  let s := dropBits s 8
  let s := dropBits s 8
  .error .panicUnimplemented

/-- Dispatch phase of `inflate_texture_data`: run the four sub-decoders in
flag order; finally the source rewinds the cursor one byte when a full
word is still live. -/
def texDispatch (dict : HuffmanTree) (ff : FullFormat)
    (compressionFlagData : Nat) (s : StateData)
    (colorBitmapData alphaBitmapData : List Bool) (out : List Nat) :
    Except DecompErr (StateData × List Nat) :=
  let step1 :=
    if compressionFlagData &&& CF_DECODE_WHITE_COLOR ≠ 0 then
      decodeWhiteColor dict ff s alphaBitmapData colorBitmapData out
    else .ok (s, alphaBitmapData, colorBitmapData, out)
  match step1 with
  | .error e => .error e
  | .ok (s, alphaBitmapData, colorBitmapData, out) =>
    let step2 :=
      if compressionFlagData &&& CF_DECODE_CONSTANT_ALPHA_4 ≠ 0 then
        decodeConstantAlphaFrom4Bits dict ff s alphaBitmapData out
      else .ok (s, alphaBitmapData, out)
    match step2 with
    | .error e => .error e
    | .ok (s, alphaBitmapData, out) =>
      let step3 :=
        if compressionFlagData &&& CF_DECODE_CONSTANT_ALPHA_8 ≠ 0 then
          decodeConstantAlphaFrom8Bits dict ff s alphaBitmapData out
        else .ok (s, alphaBitmapData, out)
      match step3 with
      | .error e => .error e
      | .ok (s, _, out) =>
        let step4 :=
          if compressionFlagData &&& CF_DECODE_PLAIN_COLOR ≠ 0 then
            decodePlainColor dict ff s colorBitmapData out
          else .ok (s, colorBitmapData, out)
        match step4 with
        | .error e => .error e
        | .ok (s, _, out) =>
          if 32 ≤ s.bytesAvailableData then
            if s.bufferPosition = 0 then .error .readFail
            else .ok ({ s with bufferPosition := s.bufferPosition - 1 }, out)
          else .ok (s, out)

/-- `inflate_texture_data`: read `data_size` and the compression flags,
then dispatch to the sub-decoders over freshly cleared block bitmaps. -/
def inflateTextureData (dict : HuffmanTree) (s : StateData) (ff : FullFormat)
    (out : List Nat) : Except DecompErr (StateData × List Nat) :=
  let s := dropBits s 32
  let compressionFlagData := (readBits s 32).1
  let s := dropBits s 32
  let colorBitmapData := List.replicate ff.pixelBlocks false
  let alphaBitmapData := List.replicate ff.pixelBlocks false
  texDispatch dict ff compressionFlagData s colorBitmapData alphaBitmapData out

/-- Initial texture `StateData` (source lines 237-240: `skipped_bytes`
is set to `0 as u32`). -/
def texInitStateData (input : List Nat) : StateData where
  inputBuffer := input
  bufferPosition := 0
  bytesAvailable := input.length % U32M
  skippedBytes := 0
  headData := 0
  bufferData := 0
  bytesAvailableData := 0

/-- Header phase of `inflate_texture_file_buffer`: pull the first word,
drop it, read the fourcc, the width and the height.  Returns
`(fourcc, width, height, state)`. -/
def texHeaderState (input : List Nat) : Nat × Nat × Nat × StateData :=
  let s := texInitStateData input
  let (s, headData, bytesAvailableData) := pullByte s
  let s := { s with headData := headData, bytesAvailableData := bytesAvailableData }
  let s := dropBits s 32
  let fourccFormat := (readBits s 32).1
  let s := dropBits s 32
  let width := (readBits s 16).1 % 65536
  let s := dropBits s 16
  let height := (readBits s 16).1 % 65536
  let s := dropBits s 16
  (fourccFormat, width, height, s)

/-- The `FullFormat` computed by `inflate_texture_file_buffer`
(`two_component` keeps its `default()` value `false`; it is never
assigned). -/
def texFullFormat (input : List Nat) : FullFormat :=
  let (fourccFormat, width, height, _) := texHeaderState input
  let format := deduceFormat fourccFormat formatData
  let twoComponent := false
  let pixelBlocks := mul32 ((width + 3) / 4) ((height + 3) / 4)
  let bytesPixelBlocks := mul32 (mul32 format.pixelSizeBits 4) 4 / 8
  let bytesComponent := bytesPixelBlocks / (if twoComponent then 2 else 1)
  { format := format, pixelBlocks := pixelBlocks,
    bytesPixelBlocks := bytesPixelBlocks, bytesComponent := bytesComponent,
    twoComponent := twoComponent, width := width, height := height }

/-- The compression-flags word as decoded by `inflate_texture_data`:
the 32 bits after the header and the `data_size` word. -/
def textureCompressionFlags (input : List Nat) : Nat :=
  let s := (texHeaderState input).2.2.2
  let s := dropBits s 32
  (readBits s 32).1

/-- `inflate_texture_file_buffer`: build the static dictionary, parse the
header, size the output to `bytes_pixel_blocks * pixel_blocks`, inflate.
Returns the out-parameters `(output_data_size, output_data)`. -/
def inflateTextureFileBuffer (input : List Nat) : Except DecompErr (Nat × List Nat) :=
  let s := (texHeaderState input).2.2.2
  let ff := texFullFormat input
  let outputDataSize := mul32 ff.bytesPixelBlocks ff.pixelBlocks
  let out := List.replicate outputDataSize 0
  match inflateTextureData texDictTree s ff out with
  | .error e => .error e
  | .ok (_, out) => .ok (outputDataSize, out)

end Tex


/-! ## Concrete inputs and the states they reach -/

/-- DAT stream whose first token is a back-reference at output position 0:
header words `[0, size 2]`, 8-bit block prologue `0` (addend 1), a symbol
table declaring only symbol `0x100` at code length 3 (count 257, dict code
`0x03`, then 32 skip-8 codes `0xE0`), a copy table declaring only symbol
`0` at length 3, token-cap nibble 0, then the codes `111` (symbol `0x100`)
and `111` (copy symbol `0`), padded with two zero words. -/
def exC1Input : List Nat :=
  [0, 0, 0, 0, 2, 0, 0, 0, 30, 1, 1, 0, 66, 8, 33, 132, 8, 33, 132, 16,
   33, 132, 16, 66, 132, 16, 66, 8, 16, 66, 8, 33, 63, 60, 2, 0, 0, 0, 0, 0,
   0, 0, 0, 0]

/-- Single pass over `exC1Input`'s stream up to its first token, made of
the pipeline's own functions: the block prologue, both dynamic tables, the
token-cap nibble, then the first token's symbol, its write size, the copy
symbol and the decoded offset.  The token loop starts at output position
0, so this first token is emitted at `p = 0`. -/
def exC1FirstToken : Except DecompErr (Nat × Nat × Nat × Nat) := do
  let pro := Dat.datPrologue exC1Input
  let a := Dat.datAddend pro.2
  let s := Dat.datAfterSizePrologue pro.2
  let (s, symTabOpt) ← Dat.parseHuffmantree Dat.datDictTree s
  match symTabOpt with
  | none => .error .fuelOut
  | some symTab => do
    let (s, copyTabOpt) ← Dat.parseHuffmantree Dat.datDictTree s
    match copyTabOpt with
    | none => .error .fuelOut
    | some copyTab => do
      let s := Dat.dropBits s 4
      let (symbolData, s) ← Dat.readCode symTab s
      let (writeSize, s) := Dat.decodeWriteSize (sub16 symbolData 0x100) a s
      let (symbolData2, s) ← Dat.readCode copyTab s
      let (writeOffset, _) := Dat.decodeWriteOffset symbolData2 s
      pure (symbolData, writeSize, symbolData2, writeOffset)

/-- DAT stream attempting scenario S5 (emit token `s = 285`): header words
`[0, size 46]`, block prologue with addend 3, a symbol table header with
count 286 whose first declaration targets symbol 285 at length 3, then a
literal `0x41`, the `s = 285` token with extra bits `101010`, and an
offset-1 copy. -/
def exC4Input : List Nat :=
  [0, 0, 0, 0, 46, 0, 0, 0, 30, 30, 1, 2, 66, 8, 33, 132, 8, 33, 132, 16,
   33, 132, 16, 66, 132, 16, 66, 8, 66, 232, 145, 32, 18, 33, 132, 16,
   62, 60, 2, 0, 0, 0, 128, 171, 0, 0, 0, 0, 0, 0, 0, 0]

/-- Bit-reader state sitting on the six set bits `111111`: the extra-bits
field that the invalid length code `s = 285` reads. -/
def exC4Step : Dat.StateData where
  inputBuffer := []
  bufferPositionBytes := 0
  bufferPositionBit := 0
  bytesAvailable := 0
  skippedBytes := 0
  headData := 0xFC000000
  bufferData := 0
  bytesAvailableData := 32

/-- DAT stream whose first dynamic-table header carries count 287: header
words `[0, size 1]`, block prologue 0, count `0x011F`, one dict code
`0x26` (declare two symbols at length 6), then 36 skip-8 codes `0xE0`. -/
def exC5Input : List Nat :=
  [0, 0, 0, 0, 1, 0, 0, 0, 24, 31, 1, 0, 66, 8, 33, 132, 8, 33, 132, 16,
   33, 132, 16, 66, 132, 16, 66, 8, 16, 66, 8, 33, 0, 0, 33, 132, 0, 0, 0, 0,
   0, 0, 0, 0]

/-- State at the first dynamic-table header of `exC5Input`. -/
def exC5State : Dat.StateData :=
  Dat.datAfterSizePrologue (Dat.datPrologue exC5Input).2

/-- Bit-reader state whose next bits are `110` followed by zeros. -/
def exC6State110 : Dat.StateData where
  inputBuffer := []
  bufferPositionBytes := 0
  bufferPositionBit := 0
  bytesAvailable := 0
  skippedBytes := 0
  headData := 0xC0000000
  bufferData := 0
  bytesAvailableData := 32

/-- Bit-reader state whose next bits are `101` followed by zeros. -/
def exC6State101 : Dat.StateData where
  inputBuffer := []
  bufferPositionBytes := 0
  bufferPositionBit := 0
  bytesAvailable := 0
  skippedBytes := 0
  headData := 0xA0000000
  bufferData := 0
  bytesAvailableData := 32

/-- Bit-reader state with 48 live bits, used to count what the block
prologue consumes. -/
def exC7State : Dat.StateData where
  inputBuffer := []
  bufferPositionBytes := 0
  bufferPositionBit := 0
  bytesAvailable := 0
  skippedBytes := 0
  headData := 0x12345678
  bufferData := 0x9ABCDEF0
  bytesAvailableData := 48

/-- Bit-reader state used as the `read_bits` / `drop_bits` witness. -/
def exC8State : Dat.StateData where
  inputBuffer := [1, 2, 3, 4]
  bufferPositionBytes := 0
  bufferPositionBit := 0
  bytesAvailable := 4
  skippedBytes := 0
  headData := 0xDEADBEEF
  bufferData := 0x0F0F0F0F
  bytesAvailableData := 64

/-- Texture stream with fourcc 0, width 4, height 4, `data_size` 0 and
compression flags 9 (white color and plain color): the white-color
decoder runs first and indexes its block bitmap out of bounds before
`decode_plain_color` is ever reached. -/
def exC10Input : List Nat :=
  [0, 0, 0, 0, 0, 0, 0, 0, 4, 0, 4, 0, 0, 0, 0, 0, 9, 0, 0, 0]

/-- The same texture stream with compression flags 8 (plain color only). -/
def exC10PlainInput : List Nat :=
  [0, 0, 0, 0, 0, 0, 0, 0, 4, 0, 4, 0, 0, 0, 0, 0, 8, 0, 0, 0]

/-- Texture reader state with one unread word and no skip configured. -/
def exC9State : Tex.StateData where
  inputBuffer := [120, 86, 52, 18]
  bufferPosition := 0
  bytesAvailable := 4
  skippedBytes := 0
  headData := 0
  bufferData := 0
  bytesAvailableData := 0


/-! ## Settling the claims -/

instance {ε α : Type} [DecidableEq ε] [DecidableEq α] : DecidableEq (Except ε α) :=
  fun x y =>
  match x, y with
  | .ok u, .ok v => if h : u = v then isTrue (by rw [h]) else isFalse (by simp [h])
  | .error u, .error v => if h : u = v then isTrue (by rw [h]) else isFalse (by simp [h])
  | .ok _, .error _ => isFalse (by simp)
  | .error _, .ok _ => isFalse (by simp)

/-- Error projection of a run result (keeps statements decidable when the
success payload contains a Huffman table). -/
def errOf {α : Type} (e : Except DecompErr α) : Option DecompErr :=
  match e with
  | .error x => some x
  | .ok _ => none

/-- C8, confirmed.  `read_bits` is a pure peek: on any reader state with at
least `n` live bits (`0 < n ≤ 32`) and an in-range head register, it returns
the top `n` bits of `head` right-justified (`head >>> (32 - n)`) together
with the state itself, unchanged in every field. -/
theorem c8_read_bits_pure_peek (s : Dat.StateData) (n : Nat)
    (h0 : 0 < n) (h1 : n ≤ 32) (h2 : n ≤ s.bytesAvailableData)
    (h3 : s.headData < U32M) :
    Dat.readBits s n = (s.headData >>> (32 - n), s) := by
  unfold Dat.readBits
  rw [if_neg (by omega)]
  unfold shr32 sub8
  congr 1
  have hn : n % 256 = n := Nat.mod_eq_of_lt (by omega)
  rw [hn, Nat.mod_eq_of_lt h3]
  rcases Nat.lt_or_ge n 32 with h | h
  · have : (32 + 256 - n) % 256 = 32 - n := by omega
    rw [this, Nat.mod_eq_of_lt (by omega)]
  · have hn32 : n = 32 := by omega
    subst hn32
    norm_num


/-- Refill-free step of `drop_bits`: when at least `n + 32` bits are live
and `0 < n < 32`, the first branch runs and only shifts registers. -/
theorem dropBits_no_refill (s : Dat.StateData) (n : Nat)
    (h0 : 0 < n) (h1 : n < 32) (h2 : n + 32 ≤ s.bytesAvailableData)
    (h3 : s.bytesAvailableData < 256) :
    Dat.dropBits s n = { s with
      headData := shl32 s.headData n ||| shr32 s.bufferData (32 - n)
      bufferData := shl32 s.bufferData n
      bytesAvailableData := s.bytesAvailableData - n
      bufferPositionBit := s.bufferPositionBit + n } := by
  have hsub : sub8 s.bytesAvailableData n = s.bytesAvailableData - n := by
    unfold sub8; omega
  have hsub32 : sub8 32 n = 32 - n := by unfold sub8; omega
  simp only [Dat.dropBits, hsub, hsub32]
  rw [if_pos (by omega), if_neg (by omega)]

/-- C3, confirmed.  When the live-bit count minus `n` is at least 32
(`0 < n < 32`), `drop_bits n` sets `head` to `(head << n) | (buffer >>
(32 - n))`, shifts `buffer` left by `n` (all with the u32 wrap), decreases
the live-bit count by exactly `n`, and advances only the bit-position
counter — the input buffer, byte cursor and byte count are untouched. -/
theorem c3_drop_bits_register_update (s : Dat.StateData) (n : Nat)
    (h0 : 0 < n) (h1 : n < 32) (h2 : n + 32 ≤ s.bytesAvailableData)
    (h3 : s.bytesAvailableData < 256)
    (h4 : s.bufferData < U32M) :
    Dat.dropBits s n = { s with
      headData := (s.headData <<< n) % U32M ||| s.bufferData >>> (32 - n)
      bufferData := (s.bufferData <<< n) % U32M
      bytesAvailableData := s.bytesAvailableData - n
      bufferPositionBit := s.bufferPositionBit + n } := by
  rw [dropBits_no_refill s n h0 h1 h2 h3]
  unfold shl32 shr32
  have hn : n % 32 = n := Nat.mod_eq_of_lt (by omega)
  have h32n : (32 - n) % 32 = 32 - n := Nat.mod_eq_of_lt (by omega)
  rw [hn, h32n, Nat.mod_eq_of_lt h4]

theorem lset_length_ok {l : List Nat} {i v : Nat} {l2 : List Nat}
    (h : lset l i v = .ok l2) : l2.length = l.length := by
  unfold lset at h
  split at h
  · injection h with h2
    subst h2
    exact List.length_set l i v
  · cases h


theorem copyLoop_length (fuel : Nat) :
    ∀ out pos ws aw wo size out2 pos2,
      Dat.copyLoop fuel out pos ws aw wo size = .ok (out2, pos2) →
      out2.length = out.length := by
  induction fuel with
  | zero =>
    intro out pos ws aw wo size out2 pos2 h
    rw [Dat.copyLoop] at h
    split at h
    · cases h
    · injection h with h2
      injection h2 with h3 h4
      subst h3
      rfl
  | succ fuel ih =>
    intro out pos ws aw wo size out2 pos2 h
    rw [Dat.copyLoop] at h
    split at h
    · simp only [bind, Except.bind] at h
      split at h
      · cases h
      · rename_i v hv
        split at h
        · cases h
        · rename_i out3 hset
          exact (ih _ _ _ _ _ _ _ _ h).trans (lset_length_ok hset)
    · injection h with h2
      injection h2 with h3 h4
      subst h3
      rfl


theorem tokenLoop_length (remTokens : Nat) :
    ∀ symTab copyTab a s out pos size s2 out2 pos2,
      Dat.tokenLoop symTab copyTab a s out pos size remTokens = .ok (s2, out2, pos2) →
      out2.length = out.length := by
  induction remTokens with
  | zero =>
    intro symTab copyTab a s out pos size s2 out2 pos2 h
    rw [Dat.tokenLoop] at h
    injection h with h2
    cases h2
    rfl
  | succ rem ih =>
    intro symTab copyTab a s out pos size s2 out2 pos2 h
    rw [Dat.tokenLoop] at h
    split at h
    · simp only [bind, Except.bind] at h
      split at h
      · cases h
      · rename_i p hp
        split at h
        · split at h
          · cases h
          · rename_i out3 hset
            exact (ih _ _ _ _ _ _ _ _ _ _ h).trans (lset_length_ok hset)
        · split at h
          · cases h
          · rename_i p2 hp2
            split at h
            · cases h
            · rename_i pr hcl
              exact (ih _ _ _ _ _ _ _ _ _ _ h).trans
                (copyLoop_length _ _ _ _ _ _ _ _ _ hcl)
    · injection h with h2
      cases h2
      rfl




theorem blockLoop_length (fuel : Nat) :
    ∀ dict a s out pos size s2 out2 pos2,
      Dat.blockLoop dict fuel a s out pos size = .ok (s2, out2, pos2) →
      out2.length = out.length := by
  induction fuel with
  | zero =>
    intro dict a s out pos size s2 out2 pos2 h
    rw [Dat.blockLoop] at h
    split at h
    · cases h
    · injection h with h2
      cases h2
      rfl
  | succ fuel ih =>
    intro dict a s out pos size s2 out2 pos2 h
    rw [Dat.blockLoop] at h
    split at h
    · simp only [bind, Except.bind] at h
      split at h
      · cases h
      · rename_i p1 hp1
        split at h
        · simp only [pure, Except.pure, Except.ok.injEq, Prod.mk.injEq] at h
          obtain ⟨-, h2, -⟩ := h
          exact h2 ▸ rfl
        · split at h
          · cases h
          · rename_i p2 hp2
            split at h
            · simp only [pure, Except.pure, Except.ok.injEq, Prod.mk.injEq] at h
              obtain ⟨-, h2, -⟩ := h
              exact h2 ▸ rfl
            · split at h
              · cases h
              · rename_i p3 hp3
                exact (ih _ _ _ _ _ _ _ _ _ h).trans
                  (tokenLoop_length _ _ _ _ _ _ _ _ _ _ _ hp3)
    · injection h with h2
      cases h2
      rfl

theorem inflateData_length (fuel : Nat) (s : Dat.StateData) (size : Nat)
    (out : List Nat) (s2 : Dat.StateData) (out2 : List Nat) (pos2 : Nat)
    (h : Dat.inflateData fuel s size out = .ok (s2, out2, pos2)) :
    out2.length = out.length := by
  unfold Dat.inflateData at h
  split at h
  · cases h
  · exact blockLoop_length _ _ _ _ _ _ _ _ _ _ h

theorem readU32LE_lt (l : List Nat) (p : Nat) : readU32LE l p < U32M := by
  unfold readU32LE U32M
  have h0 : l.getD p 0 % 256 < 256 := Nat.mod_lt _ (by norm_num)
  have h1 : l.getD (p+1) 0 % 256 < 256 := Nat.mod_lt _ (by norm_num)
  have h2 : l.getD (p+2) 0 % 256 < 256 := Nat.mod_lt _ (by norm_num)
  have h3 : l.getD (p+3) 0 % 256 < 256 := Nat.mod_lt _ (by norm_num)
  omega

theorem pullByte_pos (s : Dat.StateData) (h : 4 ≤ s.bytesAvailable) :
    Dat.pullByte s = ({ s with
      bytesAvailable := s.bytesAvailable - 4
      bufferPositionBytes := s.bufferPositionBytes + 4
      bufferPositionBit := s.bufferPositionBit + 32 },
      readU32LE s.inputBuffer s.bufferPositionBytes, 32) := by
  unfold Dat.pullByte
  rw [if_pos h]

theorem pullByte_neg (s : Dat.StateData) (h : ¬ 4 ≤ s.bytesAvailable) :
    Dat.pullByte s = (s, 0, 0) := by
  unfold Dat.pullByte
  rw [if_neg h]

theorem dropBits32_refill (s : Dat.StateData) (h32 : s.bytesAvailableData = 32)
    (hbuf : s.bufferData = 0) (h4 : 4 ≤ s.bytesAvailable) :
    Dat.dropBits s 32 = { s with
      bufferPositionBytes := s.bufferPositionBytes + 4
      bufferPositionBit := s.bufferPositionBit + 64
      bytesAvailable := s.bytesAvailable - 4
      headData := readU32LE s.inputBuffer s.bufferPositionBytes
      bufferData := 0
      bytesAvailableData := 32 } := by
  have e1 : sub8 s.bytesAvailableData 32 = 0 := by unfold sub8; omega
  simp only [Dat.dropBits, e1]
  rw [if_neg (by omega)]
  rw [pullByte_pos _ (by simpa using h4)]
  simp only [hbuf, shr32, Nat.zero_mod, Nat.zero_shiftRight, Nat.shiftRight_zero,
    Nat.zero_or, Nat.or_zero]
  norm_num

theorem dropBits32_nopull (s : Dat.StateData) (h32 : s.bytesAvailableData = 32)
    (hbuf : s.bufferData = 0) (h4 : ¬ 4 ≤ s.bytesAvailable) :
    Dat.dropBits s 32 = { s with
      bufferPositionBit := s.bufferPositionBit + 32
      headData := 0
      bufferData := 0
      bytesAvailableData := 0 } := by
  have e1 : sub8 s.bytesAvailableData 32 = 0 := by unfold sub8; omega
  simp only [Dat.dropBits, e1]
  rw [if_neg (by omega)]
  rw [pullByte_neg _ (by simpa using h4)]
  simp only [hbuf, shr32, Nat.zero_mod, Nat.zero_shiftRight, Nat.shiftRight_zero,
    Nat.zero_or, Nat.or_zero]
  norm_num

theorem dropBits32_wrap (s : Dat.StateData) (h0 : s.bytesAvailableData = 0) :
    Dat.dropBits s 32 = { s with
      bufferPositionBit := s.bufferPositionBit + 32
      headData := s.bufferData
      bufferData := 0
      bytesAvailableData := 224 } := by
  have e1 : sub8 s.bytesAvailableData 32 = 224 := by unfold sub8; omega
  simp only [Dat.dropBits, e1]
  rw [if_pos (by omega)]
  norm_num

theorem readBits32 (s : Dat.StateData) :
    Dat.readBits s 32 = (s.headData % U32M, s) := by
  unfold Dat.readBits
  have e : sub8 32 32 = 0 := by norm_num [sub8]
  rw [e]
  have e2 : shr32 s.headData 0 = s.headData % U32M := by
    simp [shr32]
  rw [e2]
  split
  · rw [if_neg (by omega)]
  · rfl

theorem datPrologue_of_12_le (input : List Nat) (hlen : input.length < U32M)
    (h12 : 12 ≤ input.length) :
    Dat.datPrologue input =
      (readU32LE input 4,
       { inputBuffer := input
         bufferPositionBytes := 12
         bufferPositionBit := 160
         bytesAvailable := input.length - 12
         skippedBytes := 0
         headData := readU32LE input 8
         bufferData := 0
         bytesAvailableData := 32 }) := by
  have hmod : input.length % U32M = input.length := Nat.mod_eq_of_lt hlen
  unfold Dat.datPrologue Dat.datInitState
  rw [hmod]
  dsimp only
  rw [pullByte_pos _ (by exact (show (4:Nat) ≤ input.length by omega))]
  dsimp only
  rw [dropBits32_refill _ rfl rfl (by exact (show (4:Nat) ≤ input.length - 4 by omega))]
  dsimp only
  rw [readBits32]
  dsimp only
  rw [dropBits32_refill _ rfl rfl (by exact (show (4:Nat) ≤ input.length - 4 - 4 by omega))]
  dsimp only
  rw [Nat.mod_eq_of_lt (readU32LE_lt input (0 + 4))]
  norm_num
  omega

theorem datPrologue_fst_of_8_le (input : List Nat) (hlen : input.length < U32M)
    (h8 : 8 ≤ input.length) : (Dat.datPrologue input).1 = readU32LE input 4 := by
  have hmod : input.length % U32M = input.length := Nat.mod_eq_of_lt hlen
  unfold Dat.datPrologue Dat.datInitState
  rw [hmod]
  dsimp only
  rw [pullByte_pos _ (by exact (show (4:Nat) ≤ input.length by omega))]
  dsimp only
  rw [dropBits32_refill _ rfl rfl (by exact (show (4:Nat) ≤ input.length - 4 by omega))]
  dsimp only
  rw [readBits32]
  dsimp only
  rw [Nat.mod_eq_of_lt (readU32LE_lt input (0 + 4))]

theorem datPrologue_fst_of_lt_8 (input : List Nat) (hlen : input.length < U32M)
    (h8 : ¬ 8 ≤ input.length) : (Dat.datPrologue input).1 = 0 := by
  have hmod : input.length % U32M = input.length := Nat.mod_eq_of_lt hlen
  unfold Dat.datPrologue Dat.datInitState
  rw [hmod]
  dsimp only
  by_cases h4 : 4 ≤ input.length
  · rw [pullByte_pos _ (by exact h4)]
    dsimp only
    rw [dropBits32_nopull _ rfl rfl (by exact (show ¬ (4:Nat) ≤ input.length - 4 by omega))]
    dsimp only
    rw [readBits32]
    rfl
  · rw [pullByte_neg _ (by exact h4)]
    dsimp only
    rw [dropBits32_wrap _ rfl]
    dsimp only
    rw [readBits32]
    rfl

/-- C2, confirmed.  For any input shorter than `2^32` bytes: the announced
output size is the little-endian u32 at bytes 4..8 of the input (0 when
fewer than 8 bytes are available); an input of 12 or more bytes leaves the
byte cursor at 12 after the prologue (the full 96-bit three-word prologue
is consumed); and a successful `inflate_dat_file_buffer` returns exactly
the announced size together with an output buffer of exactly that length. -/
theorem c2_header_size_and_output_length (input : List Nat) (hlen : input.length < U32M) :
    ((Dat.datPrologue input).1 =
       if 8 ≤ input.length then readU32LE input 4 else 0) ∧
    (12 ≤ input.length → (Dat.datPrologue input).2.bufferPositionBytes = 12) ∧
    (∀ sz out, Dat.inflateDatFileBuffer input = .ok (sz, out) →
       sz = (Dat.datPrologue input).1 ∧ out.length = sz) := by
  refine ⟨?_, ?_, ?_⟩
  · by_cases h8 : 8 ≤ input.length
    · rw [if_pos h8, datPrologue_fst_of_8_le input hlen h8]
    · rw [if_neg h8, datPrologue_fst_of_lt_8 input hlen h8]
  · intro h12
    rw [datPrologue_of_12_le input hlen h12]
  · intro sz out h
    unfold Dat.inflateDatFileBuffer at h
    rcases hdp : Dat.datPrologue input with ⟨sz0, s0⟩
    rw [hdp] at h
    dsimp only at h
    split at h
    · cases h
    · rename_i s2 out2 pos2 hp
      injection h with h2
      injection h2 with hsz hout
      subst hsz
      subst hout
      refine ⟨rfl, ?_⟩
      have := inflateData_length _ _ _ _ _ _ _ hp
      rw [this, List.length_replicate]

theorem add32_one_pos (wo : Nat) (h : wo % U32M ≠ U32M - 1) : 1 ≤ add32 wo 1 := by
  unfold add32 U32M at *
  omega

theorem readBits_small_cases (s : Dat.StateData) (bits : Nat)
    (h1 : 0 < bits) (h2 : bits < 32) :
    (Dat.readBits s bits).1 < 2 ^ bits ∨
    ∃ v, v < 2 ^ bits ∧ (Dat.readBits s bits).1 = v * 2 ^ (32 - bits) := by
  have hsub : sub8 32 bits = 32 - bits := by unfold sub8; omega
  have hvlt : shr32 s.headData (32 - bits) < 2 ^ bits := by
    unfold shr32
    rw [Nat.shiftRight_eq_div_pow]
    have hm : (32 - bits) % 32 = 32 - bits := Nat.mod_eq_of_lt (by omega)
    rw [hm]
    have hx : s.headData % U32M < 2 ^ (32 - bits) * 2 ^ bits := by
      have : (2:Nat) ^ (32 - bits) * 2 ^ bits = 2 ^ 32 := by
        rw [← pow_add]
        congr 1
        omega
      rw [this]
      exact Nat.mod_lt _ (by norm_num [U32M])
    exact Nat.div_lt_of_lt_mul hx
  unfold Dat.readBits
  rw [hsub]
  dsimp only
  split
  · right
    refine ⟨shr32 s.headData (32 - bits), hvlt, ?_⟩
    dsimp only
    unfold shl32
    rw [Nat.mod_eq_of_lt (by omega : 32 - bits < 32), Nat.shiftLeft_eq]
    exact Nat.mod_eq_of_lt (by
      calc shr32 s.headData (32 - bits) * 2 ^ (32 - bits)
          < 2 ^ bits * 2 ^ (32 - bits) := by
            exact Nat.mul_lt_mul_of_lt_of_le hvlt (le_refl _) (Nat.pos_pow_of_pos _ (by norm_num))
        _ = 2 ^ 32 := by rw [← pow_add]; congr 1; omega
        _ = U32M := by norm_num [U32M])
  · left
    exact hvlt

/-- C1, corrected — the amended lower bound.  For every valid offset code
(`symbolData / 2 < 17`, the range the offset table can meaningfully emit)
and every reader state, the decoded write offset satisfies `D ≥ 1`.  The
claimed upper bound `D ≤ p` is false: `c1_copy_offset_exceeds_position_cx`
exhibits a stream whose first token is a copy at position 0 with offset 1,
which panics out of bounds. -/
theorem c1_offset_lower_bound (symbolData : Nat) (s : Dat.StateData)
    (hq : symbolData / 2 < 17) :
    1 ≤ (Dat.decodeWriteOffset symbolData s).1 := by
  unfold Dat.decodeWriteOffset
  dsimp only
  by_cases hgt : 1 < symbolData / 2
  · rw [if_pos hgt]
    dsimp only
    rw [if_neg (show ¬ symbolData / 2 = 0 by omega), if_pos hq]
    have hs16 : sub16 (symbolData / 2) 1 = symbolData / 2 - 1 := by unfold sub16; omega
    rw [hs16]
    have hb256 : (symbolData / 2 - 1) % 256 = symbolData / 2 - 1 := by omega
    rw [hb256]
    have hshl : shl32 1 (symbolData / 2 - 1) = 2 ^ (symbolData / 2 - 1) := by
      unfold shl32
      rw [Nat.mod_eq_of_lt (by omega : symbolData / 2 - 1 < 32), Nat.shiftLeft_eq, one_mul]
      exact Nat.mod_eq_of_lt (by
        calc (2:Nat) ^ (symbolData / 2 - 1) ≤ 2 ^ 15 :=
              Nat.pow_le_pow_right (by norm_num) (by omega)
          _ < U32M := by norm_num [U32M])
    rw [hshl]
    have hbasele : 2 ^ (symbolData / 2 - 1) * (2 + symbolData % 2) ≤ 98304 := by
      calc 2 ^ (symbolData / 2 - 1) * (2 + symbolData % 2) ≤ 2 ^ 15 * 3 := by
            apply Nat.mul_le_mul
            · exact Nat.pow_le_pow_right (by norm_num) (by omega)
            · omega
        _ = 98304 := by norm_num
    have hmul : mul32 (2 ^ (symbolData / 2 - 1)) (2 + symbolData % 2) =
        2 ^ (symbolData / 2 - 1) * (2 + symbolData % 2) := by
      unfold mul32
      exact Nat.mod_eq_of_lt (by
        calc 2 ^ (symbolData / 2 - 1) * (2 + symbolData % 2) ≤ 98304 := hbasele
          _ < U32M := by norm_num [U32M])
    rw [hmul]
    apply add32_one_pos
    rcases readBits_small_cases s (symbolData / 2 - 1) (by omega) (by omega) with
      hsm | ⟨v, hv, hpd⟩
    · have hor : 2 ^ (symbolData / 2 - 1) * (2 + symbolData % 2) |||
          (Dat.readBits s (symbolData / 2 - 1)).1 < 2 ^ 17 := by
        apply Nat.or_lt_two_pow
        · calc 2 ^ (symbolData / 2 - 1) * (2 + symbolData % 2) ≤ 98304 := hbasele
            _ < 2 ^ 17 := by norm_num
        · calc (Dat.readBits s (symbolData / 2 - 1)).1
              < 2 ^ (symbolData / 2 - 1) := hsm
            _ ≤ 2 ^ 17 := Nat.pow_le_pow_right (by norm_num) (by omega)
      have hlt : 2 ^ (symbolData / 2 - 1) * (2 + symbolData % 2) |||
          (Dat.readBits s (symbolData / 2 - 1)).1 < 131072 := by
        norm_num at hor
        exact hor
      rw [Nat.mod_eq_of_lt (show _ < U32M by norm_num [U32M]; omega)]
      norm_num [U32M]
      omega
    · rw [hpd]
      have hext : v * 2 ^ (32 - (symbolData / 2 - 1)) < 2 ^ 32 := by
        calc v * 2 ^ (32 - (symbolData / 2 - 1))
            < 2 ^ (symbolData / 2 - 1) * 2 ^ (32 - (symbolData / 2 - 1)) :=
              Nat.mul_lt_mul_of_lt_of_le hv (le_refl _)
                (Nat.pos_pow_of_pos _ (by norm_num))
          _ = 2 ^ 32 := by
              rw [← pow_add]
              have he : symbolData / 2 - 1 + (32 - (symbolData / 2 - 1)) = 32 := by omega
              rw [he]
      have hwoLt : 2 ^ (symbolData / 2 - 1) * (2 + symbolData % 2) |||
          v * 2 ^ (32 - (symbolData / 2 - 1)) < 2 ^ 32 := by
        apply Nat.or_lt_two_pow
        · calc 2 ^ (symbolData / 2 - 1) * (2 + symbolData % 2) ≤ 98304 := hbasele
            _ < 2 ^ 32 := by norm_num
        · exact hext
      intro hcontra
      rw [Nat.mod_eq_of_lt (show _ < U32M by norm_num [U32M]; omega)] at hcontra
      have e2 : ∀ x : Nat, x &&& (2 ^ 17 - 1) = x % 2 ^ 17 := fun x =>
        Nat.and_pow_two_sub_one_eq_mod x 17
      have e3 : (v * 2 ^ (32 - (symbolData / 2 - 1))) % 2 ^ 17 = 0 := by
        have hsplit : v * 2 ^ (32 - (symbolData / 2 - 1)) =
            v * 2 ^ (32 - (symbolData / 2 - 1) - 17) * 2 ^ 17 := by
          rw [mul_assoc, ← pow_add]
          have he : 32 - (symbolData / 2 - 1) - 17 + 17 = 32 - (symbolData / 2 - 1) := by
            omega
          rw [he]
        rw [hsplit]
        exact Nat.mul_mod_left _ _
      have e4 : (2 ^ (symbolData / 2 - 1) * (2 + symbolData % 2)) % 2 ^ 17 =
          2 ^ (symbolData / 2 - 1) * (2 + symbolData % 2) :=
        Nat.mod_eq_of_lt (by norm_num; omega)
      have hmod17 : (2 ^ (symbolData / 2 - 1) * (2 + symbolData % 2) |||
          v * 2 ^ (32 - (symbolData / 2 - 1))) % 2 ^ 17 =
          2 ^ (symbolData / 2 - 1) * (2 + symbolData % 2) := by
        rw [← e2, Nat.and_distrib_right, e2, e2, e3, e4, Nat.or_zero]
      rw [hcontra] at hmod17
      norm_num [U32M] at hmod17
      omega
  · rw [if_neg hgt]
    dsimp only
    apply add32_one_pos
    by_cases h0 : symbolData / 2 = 0
    · rw [if_pos h0]
      have hsd : symbolData ≤ 1 := by omega
      rw [Nat.mod_eq_of_lt (by norm_num [U32M]; omega)]
      norm_num [U32M]
      omega
    · rw [if_neg h0, if_pos hq]
      have hq1 : symbolData / 2 = 1 := by omega
      rw [hq1]
      have hs16 : sub16 1 1 = 0 := by norm_num [sub16]
      rw [hs16]
      have hshl : shl32 1 0 = 1 := by norm_num [shl32, U32M]
      rw [hshl]
      have hmul : mul32 1 (2 + symbolData % 2) = 2 + symbolData % 2 := by
        unfold mul32
        rw [one_mul]
        exact Nat.mod_eq_of_lt (by norm_num [U32M]; omega)
      rw [hmul]
      rw [Nat.mod_eq_of_lt (by norm_num [U32M]; omega)]
      norm_num [U32M]
      omega

/-- C4, corrected — the amended behaviour of the invalid length code.  For
the token `s = 285` (`symbolData = 29` after the `0x100` split), for every
addend and state: the warning condition holds, but the written length is
not the addend alone — it is the six freshly read lookahead bits ORed into
the zero base, plus the addend, and the six bits are consumed.
`c4_length_not_addend_alone_cx` shows a concrete length of 64 ≠ addend. -/
theorem c4_invalid_length_code_behavior (addend : Nat) (s : Dat.StateData) :
    Dat.decodeWriteSize 29 addend s =
      (add32 (Dat.readBits s 6).1 addend, Dat.dropBits s 6) ∧
    Dat.writeSizeWarns 29 = true := by
  constructor
  · unfold Dat.decodeWriteSize
    norm_num [sub16]
  · rfl

/-- C5, corrected — the amended count handling.  When the 16-bit symbol
count exceeds 285 the warning fires, but parsing continues with the raw
count: the declaration loop starts from `count - 1`, strictly beyond the
`min(count, 285) - 1` start the clamped parse of the spec would use.
`c5_clamping_absent_cx` shows the raw parse panics where the clamped
variant succeeds. -/
theorem c5_raw_count_drives_loop (c : Nat) (h1 : 285 < c) (h2 : c < 32768) :
    Dat.parseCountWarns c = true ∧
    Dat.parseRemainingStart c = (c : Int) - 1 ∧
    ((min c MAX_SYMBOL_VALUE : Nat) : Int) - 1 < Dat.parseRemainingStart c := by
  have hrs : Dat.parseRemainingStart c = (c : Int) - 1 := by
    unfold Dat.parseRemainingStart
    have hsub : sub16 c 1 = c - 1 := by unfold sub16; omega
    rw [hsub]
    unfold i16ofU16
    rw [if_pos (by omega : (c - 1) % 65536 < 32768)]
    omega
  refine ⟨?_, hrs, ?_⟩
  · unfold Dat.parseCountWarns MAX_SYMBOL_VALUE
    exact decide_eq_true h1
  · rw [hrs]
    have hmin : min c MAX_SYMBOL_VALUE = 285 := by unfold MAX_SYMBOL_VALUE; omega
    rw [hmin]
    omega

theorem datAddend_range (s : Dat.StateData) :
    1 ≤ Dat.datAddend s ∧ Dat.datAddend s ≤ 16 := by
  unfold Dat.datAddend
  have hv : (Dat.readBits (Dat.dropBits s 4) 4).1 % 65536 ≤ 15 := by
    unfold Dat.readBits
    have hsub : sub8 32 4 = 28 := by norm_num [sub8]
    rw [hsub]
    have hval : shr32 (Dat.dropBits s 4).headData 28 < 16 := by
      unfold shr32
      rw [Nat.shiftRight_eq_div_pow]
      have hm : (28:Nat) % 32 = 28 := by norm_num
      rw [hm]
      have hx : (Dat.dropBits s 4).headData % U32M < 2 ^ 28 * 16 := by
        calc (Dat.dropBits s 4).headData % U32M < U32M :=
              Nat.mod_lt _ (by norm_num [U32M])
          _ = 2 ^ 28 * 16 := by norm_num [U32M]
      exact Nat.div_lt_of_lt_mul hx
    dsimp only
    split
    · split
      · unfold shl32
        have hm32 : (32 - 4) % 32 = 28 := by norm_num
        rw [hm32, Nat.shiftLeft_eq]
        have : shr32 (Dat.dropBits s 4).headData 28 * 2 ^ 28 % U32M % 65536 = 0 := by
          have hd : (65536:Nat) ∣ shr32 (Dat.dropBits s 4).headData 28 * 2 ^ 28 % U32M := by
            have h1 : (65536:Nat) ∣ shr32 (Dat.dropBits s 4).headData 28 * 2 ^ 28 := by
              refine Dvd.dvd.mul_left ?_ _
              exact ⟨2 ^ 12, by norm_num⟩
            have h2 : (65536:Nat) ∣ U32M := by norm_num [U32M]
            exact (Nat.dvd_mod_iff h2).mpr h1
          exact Nat.mod_eq_zero_of_dvd hd
        rw [this]
        norm_num
      · omega
    · omega
  unfold U32M at *
  constructor
  · omega
  · omega

/-- C7, corrected — the amended prologue contract.  `inflate_data` applies
the size prologue exactly once, before the first block, and passes the one
`write_size_addend` unchanged to the block loop; the addend always lies in
`[1, 16]`; and on any state with at least 40 live bits the prologue
consumes exactly 8 bits without touching the input cursor — not 12 bits as
claimed, since the 4-bit read only peeks the bits the second drop consumes
(`c7_prologue_eight_bits_cx`). -/
theorem c7_single_prologue_same_addend :
    (∀ (fuel : Nat) (s : Dat.StateData) (size : Nat) (out : List Nat),
      Dat.inflateData fuel s size out =
        match Dat.initializeHuffmantreeDict with
        | Except.error e => Except.error e
        | Except.ok dictOpt =>
            Dat.blockLoop (dictOpt.getD HuffmanTree.init) fuel (Dat.datAddend s)
              (Dat.datAfterSizePrologue s) out 0 size) ∧
    (∀ s : Dat.StateData, 1 ≤ Dat.datAddend s ∧ Dat.datAddend s ≤ 16) ∧
    (∀ s : Dat.StateData, 40 ≤ s.bytesAvailableData → s.bytesAvailableData < 256 →
      (Dat.datAfterSizePrologue s).bytesAvailableData = s.bytesAvailableData - 8 ∧
      (Dat.datAfterSizePrologue s).bufferPositionBit = s.bufferPositionBit + 8 ∧
      (Dat.datAfterSizePrologue s).bufferPositionBytes = s.bufferPositionBytes ∧
      (Dat.datAfterSizePrologue s).bytesAvailable = s.bytesAvailable ∧
      (Dat.datAfterSizePrologue s).inputBuffer = s.inputBuffer) := by
  refine ⟨?_, datAddend_range, ?_⟩
  · intro fuel s size out
    rfl
  · intro s h40 h256
    unfold Dat.datAfterSizePrologue
    rw [dropBits_no_refill s 4 (by norm_num) (by norm_num) (by omega) (by omega)]
    rw [dropBits_no_refill _ 4 (by norm_num) (by norm_num) (by dsimp only; omega)
      (by dsimp only; omega)]
    dsimp only
    refine ⟨by omega, by omega, rfl, rfl, rfl⟩

/-- C9, corrected — the amended configuration.  The texture entry point
sets `skipped_bytes` to 0, not 16384 (`c9_skip_period_not_16384_cx`), and
with a zero skip period `pull_byte` never discards a word: it advances one
word per call whenever four bytes remain. -/
theorem c9_skip_disabled :
    (∀ input : List Nat, (Tex.texInitStateData input).skippedBytes = 0) ∧
    (∀ s : Tex.StateData, s.skippedBytes = 0 → 4 ≤ s.bytesAvailable →
      Tex.pullByte s = ({ s with
        bytesAvailable := s.bytesAvailable - 4
        bufferPosition := s.bufferPosition + 4 },
        readU32LE s.inputBuffer s.bufferPosition, 32)) := by
  refine ⟨fun input => rfl, ?_⟩
  intro s h0 h4
  unfold Tex.pullByte
  rw [if_pos h4, if_neg (by simp [h0])]

theorem texDispatch_plain (dict : HuffmanTree) (ff : Tex.FullFormat)
    (cf : Nat) (s : Tex.StateData) (colorB alphaB : List Bool) (out : List Nat)
    (h1 : cf &&& Tex.CF_DECODE_WHITE_COLOR = 0)
    (h2 : cf &&& Tex.CF_DECODE_CONSTANT_ALPHA_4 = 0)
    (h4 : cf &&& Tex.CF_DECODE_CONSTANT_ALPHA_8 = 0)
    (h8 : cf &&& Tex.CF_DECODE_PLAIN_COLOR ≠ 0) :
    Tex.texDispatch dict ff cf s colorB alphaB out = .error .panicUnimplemented := by
  unfold Tex.texDispatch
  rw [if_neg (not_not_intro h1)]
  dsimp only
  rw [if_neg (not_not_intro h2)]
  dsimp only
  rw [if_neg (not_not_intro h4)]
  dsimp only
  rw [if_pos h8]
  rfl

theorem inflateTextureData_plain (dict : HuffmanTree) (s : Tex.StateData)
    (ff : Tex.FullFormat) (out : List Nat)
    (h1 : (Tex.readBits (Tex.dropBits s 32) 32).1 &&& 1 = 0)
    (h2 : (Tex.readBits (Tex.dropBits s 32) 32).1 &&& 2 = 0)
    (h4 : (Tex.readBits (Tex.dropBits s 32) 32).1 &&& 4 = 0)
    (h8 : (Tex.readBits (Tex.dropBits s 32) 32).1 &&& 8 ≠ 0) :
    Tex.inflateTextureData dict s ff out = .error .panicUnimplemented := by
  unfold Tex.inflateTextureData
  dsimp only
  exact texDispatch_plain dict ff _ _ _ _ _ h1 h2 h4 h8

/-- C10, corrected — the amended panic condition.  When the compression
flags have the `DecodePlainColor` bit 0x08 set and the three lower decode
bits clear, `inflate_texture_file_buffer` ends in the `unimplemented!`
panic of `decode_plain_color`.  The unconditional claim fails: with
another decode bit also set an earlier sub-decoder can panic first
(`c10_earlier_panic_cx`). -/
theorem c10_plain_color_unimplemented (input : List Nat)
    (hp : Tex.textureCompressionFlags input &&& 8 ≠ 0)
    (hlow : Tex.textureCompressionFlags input &&& 7 = 0) :
    Tex.inflateTextureFileBuffer input = .error .panicUnimplemented := by
  have hand : ∀ m : Nat, m &&& 7 &&& 1 = m &&& 1 ∧ m &&& 7 &&& 2 = m &&& 2 ∧
      m &&& 7 &&& 4 = m &&& 4 := by
    intro m
    refine ⟨?_, ?_, ?_⟩
    · rw [Nat.and_assoc, show (7:Nat) &&& 1 = 1 from by decide]
    · rw [Nat.and_assoc, show (7:Nat) &&& 2 = 2 from by decide]
    · rw [Nat.and_assoc, show (7:Nat) &&& 4 = 4 from by decide]
  have h1 : Tex.textureCompressionFlags input &&& 1 = 0 := by
    rw [← (hand _).1, hlow, Nat.zero_and]
  have h2 : Tex.textureCompressionFlags input &&& 2 = 0 := by
    rw [← (hand _).2.1, hlow, Nat.zero_and]
  have h4 : Tex.textureCompressionFlags input &&& 4 = 0 := by
    rw [← (hand _).2.2, hlow, Nat.zero_and]
  have hcf : Tex.textureCompressionFlags input =
      (Tex.readBits (Tex.dropBits (Tex.texHeaderState input).2.2.2 32) 32).1 := rfl
  rw [hcf] at h1 h2 h4 hp
  unfold Tex.inflateTextureFileBuffer
  dsimp only
  rw [inflateTextureData_plain _ _ _ _ h1 h2 h4 hp]


/-- C1, counterexample.  On `exC1Input` the very first token is a copy,
emitted at output position `p = 0` with decoded offset `D = 1`, so
`D ≤ p` fails; the copy loop then reads output index `0 - 1` (wrapped)
and the whole inflation panics out of bounds instead of reading only
already-written positions. -/
theorem c1_copy_offset_exceeds_position_cx :
    Dat.inflateDatFileBuffer exC1Input = .error .panicIndex ∧
    exC1FirstToken = .ok (256, 1, 0, 1) ∧
    ¬ ((1 : Nat) ≤ 0) ∧
    Dat.copyLoop 3 (List.replicate 2 0) 0 1 0 1 2 = .error .panicIndex := by
  decide!

/-- C4, counterexample.  `exC4Input` is the natural attempt at scenario
S5: its symbol-table header (count 286, which triggers the warning
condition) declares symbol 285 so that the token `s = 285` could be
emitted — but building that table already panics (the chain walk indexes
the 285-entry builder arrays at 285), so decoding does not continue.
And at the write-size step itself, with addend 1 and six set lookahead
bits, the written length is `63 + 1 = 64`, not the addend alone. -/
theorem c4_length_not_addend_alone_cx :
    Dat.parseCountWarns 286 = true ∧
    Dat.inflateDatFileBuffer exC4Input = .error .panicIndex ∧
    Dat.writeSizeWarns 29 = true ∧
    (Dat.decodeWriteSize 29 1 exC4Step).1 = 64 ∧
    (64 : Nat) ≠ 1 := by
  decide!

/-- C5, counterexample.  `exC5State` (reached from `exC5Input`) carries a
table header with count 287: the warning condition holds, but the raw
parse panics out of bounds at builder index 285 while the spec's clamped
variant parses to completion — so parsing does not continue with
`min(count, 285)`. -/
theorem c5_clamping_absent_cx :
    (Dat.readBits exC5State 16).1 % 65536 = 287 ∧
    Dat.parseCountWarns 287 = true ∧
    errOf (Dat.parseHuffmantree Dat.datDictTree exC5State) = some .panicIndex ∧
    (Dat.parseHuffmantreeSpecClamped Dat.datDictTree exC5State).isOk = true ∧
    Dat.inflateDatFileBuffer exC5Input = .error .panicIndex := by
  decide!

/-- C6, counterexample.  Decoding the bit pattern `110` against the
static dictionary yields symbol `0x09`, not `0x0A`. -/
theorem c6_bits110_yield_09_cx :
    (Dat.readCode Dat.datDictTree exC6State110).map Prod.fst = .ok 0x09 ∧
    (0x09 : Nat) ≠ 0x0A := by
  decide!

/-- C6, amended: decoding `110` against the static dictionary yields
symbol `0x09` and consumes exactly 3 bits, and it is the pattern `101`
that yields `0x0A` (also consuming 3 bits): the first-declared 3-bit
symbol receives the numerically smallest 3-bit code. -/
theorem c6_static_dict_decode :
    (Dat.readCode Dat.datDictTree exC6State110).map Prod.fst = .ok 0x09 ∧
    (Dat.readCode Dat.datDictTree exC6State110).map
      (fun p => p.2.bytesAvailableData) = .ok 29 ∧
    (Dat.readCode Dat.datDictTree exC6State110).map
      (fun p => p.2.bufferPositionBit) = .ok 3 ∧
    (Dat.readCode Dat.datDictTree exC6State101).map Prod.fst = .ok 0x0A ∧
    (Dat.readCode Dat.datDictTree exC6State101).map
      (fun p => p.2.bytesAvailableData) = .ok 29 := by
  decide!

/-- C7, counterexample.  From a refill-free state with 48 live bits, the
`inflate_data` prologue consumes exactly 8 bits (skip 4; the 4-bit read
peeks and the final drop consumes those same 4 bits), not 12. -/
theorem c7_prologue_eight_bits_cx :
    (Dat.datAfterSizePrologue exC7State).bytesAvailableData = 40 ∧
    (Dat.datAfterSizePrologue exC7State).bufferPositionBit = 8 ∧
    exC7State.bytesAvailableData = 48 ∧
    ((40 : Nat) ≠ 48 - 12 ∧ (8 : Nat) ≠ 12) := by
  decide

/-- C9, counterexample.  The texture entry point configures its reader
with `skipped_bytes = 0`, not 16384. -/
theorem c9_skip_period_not_16384_cx :
    (Tex.texInitStateData exC10PlainInput).skippedBytes = 0 ∧
    (Tex.texInitStateData exC10PlainInput).skippedBytes ≠ 16384 := by
  decide

/-- C10, counterexample.  `exC10Input` has the `DecodePlainColor` bit set
(flags 9), yet the run panics with an out-of-bounds index inside the
white-color decoder, which runs first, and never reaches the
`unimplemented!` of `decode_plain_color`. -/
theorem c10_earlier_panic_cx :
    Tex.textureCompressionFlags exC10Input &&& Tex.CF_DECODE_PLAIN_COLOR ≠ 0 ∧
    Tex.inflateTextureFileBuffer exC10Input = .error .panicIndex ∧
    Tex.inflateTextureFileBuffer exC10Input ≠ .error .panicUnimplemented := by
  decide!

/-! ## Witnesses: each hypothesis-bearing claim theorem applied at a
concrete input -/

/-- Witness for C1: the valid offset code 3 decoded on the concrete reader
state yields an offset of at least 1. -/
theorem c1_offset_lower_bound_witness :
    (3:Nat) / 2 < 17 ∧ 1 ≤ (Dat.decodeWriteOffset 3 exC8State).1 :=
  ⟨by decide, c1_offset_lower_bound 3 exC8State (by decide)⟩

/-- Witness for C2: on a 16-byte zero input the size is the (zero) word at
bytes 4..8, the cursor ends at 12, and inflation returns that size. -/
theorem c2_header_size_and_output_length_witness :
    Dat.inflateDatFileBuffer (List.replicate 16 0) = .ok (0, []) ∧
    ((List.replicate 16 0).length < U32M ∧
    ((Dat.datPrologue (List.replicate 16 0)).1 =
      if 8 ≤ (List.replicate 16 0).length then readU32LE (List.replicate 16 0) 4
      else 0) ∧
    (12 ≤ (List.replicate 16 0).length →
      (Dat.datPrologue (List.replicate 16 0)).2.bufferPositionBytes = 12) ∧
    (∀ sz out, Dat.inflateDatFileBuffer (List.replicate 16 0) = .ok (sz, out) →
      sz = (Dat.datPrologue (List.replicate 16 0)).1 ∧ out.length = sz)) :=
  ⟨by decide!,
   by decide,
   c2_header_size_and_output_length (List.replicate 16 0) (by decide)⟩

/-- Witness for C3: dropping 5 bits on the concrete 64-live-bit state
shifts the registers exactly as stated. -/
theorem c3_drop_bits_register_update_witness :
    (0 < 5 ∧ 5 < 32 ∧ 5 + 32 ≤ exC8State.bytesAvailableData ∧
     exC8State.bytesAvailableData < 256 ∧ exC8State.bufferData < U32M) ∧
    Dat.dropBits exC8State 5 = { exC8State with
      headData := (exC8State.headData <<< 5) % U32M |||
        exC8State.bufferData >>> (32 - 5)
      bufferData := (exC8State.bufferData <<< 5) % U32M
      bytesAvailableData := exC8State.bytesAvailableData - 5
      bufferPositionBit := exC8State.bufferPositionBit + 5 } :=
  ⟨by decide,
   c3_drop_bits_register_update exC8State 5 (by decide) (by decide) (by decide)
     (by decide) (by decide)⟩

/-- Witness for C5: count 287 warns and starts the loop at 286, beyond the
clamped 284. -/
theorem c5_raw_count_drives_loop_witness :
    (285 < 287 ∧ 287 < 32768) ∧
    (Dat.parseCountWarns 287 = true ∧
     Dat.parseRemainingStart 287 = (287 : Int) - 1 ∧
     ((min 287 MAX_SYMBOL_VALUE : Nat) : Int) - 1 < Dat.parseRemainingStart 287) :=
  ⟨by decide, c5_raw_count_drives_loop 287 (by decide) (by decide)⟩

/-- Witness for C7: on the 48-live-bit state the addend is in range and the
prologue leaves exactly 40 live bits. -/
theorem c7_single_prologue_same_addend_witness :
    (40 ≤ exC7State.bytesAvailableData ∧ exC7State.bytesAvailableData < 256) ∧
    (1 ≤ Dat.datAddend exC7State ∧ Dat.datAddend exC7State ≤ 16) ∧
    (Dat.datAfterSizePrologue exC7State).bytesAvailableData =
      exC7State.bytesAvailableData - 8 :=
  ⟨by decide, c7_single_prologue_same_addend.2.1 exC7State,
   (c7_single_prologue_same_addend.2.2 exC7State (by decide) (by decide)).1⟩

/-- Witness for C8: peeking 16 bits of the concrete state returns the top
half of `head` and the untouched state. -/
theorem c8_read_bits_pure_peek_witness :
    (0 < 16 ∧ 16 ≤ 32 ∧ 16 ≤ exC8State.bytesAvailableData ∧
     exC8State.headData < U32M) ∧
    Dat.readBits exC8State 16 = (exC8State.headData >>> (32 - 16), exC8State) :=
  ⟨by decide,
   c8_read_bits_pure_peek exC8State 16 (by decide) (by decide) (by decide)
     (by decide)⟩

/-- Witness for C9: the entry state has skip period 0 and `pull_byte` on
the concrete one-word state advances without a discard. -/
theorem c9_skip_disabled_witness :
    (Tex.texInitStateData [1, 2, 3]).skippedBytes = 0 ∧
    (exC9State.skippedBytes = 0 ∧ 4 ≤ exC9State.bytesAvailable) ∧
    Tex.pullByte exC9State = ({ exC9State with
      bytesAvailable := exC9State.bytesAvailable - 4
      bufferPosition := exC9State.bufferPosition + 4 },
      readU32LE exC9State.inputBuffer exC9State.bufferPosition, 32) :=
  ⟨c9_skip_disabled.1 [1, 2, 3], by decide,
   c9_skip_disabled.2 exC9State (by decide) (by decide)⟩

/-- Witness for C10: the flags-8 texture stream reaches the
`decode_plain_color` panic. -/
theorem c10_plain_color_unimplemented_witness :
    (Tex.textureCompressionFlags exC10PlainInput &&& 8 ≠ 0 ∧
     Tex.textureCompressionFlags exC10PlainInput &&& 7 = 0) ∧
    Tex.inflateTextureFileBuffer exC10PlainInput = .error .panicUnimplemented :=
  ⟨by decide!,
   c10_plain_color_unimplemented exC10PlainInput (by decide!) (by decide!)⟩

end Tarir
